import Mathlib

/-!
Verification of the proficiency-routing expression validator and the
contact-flow event schema of the `amazon-connect-python-types` repository.

The Python source (pydantic models in `proficiency_routing/type.py` and
`contact_flow_event/type.py`) is shallowly embedded: JSON documents become a
`Json` inductive, each pydantic model becomes a Lean structure, and each
validation entry point becomes a total function `Json → Except VErr α`
mirroring the source checks in source order.  Each distinct `raise`
site / pydantic error class is a distinct `VErr` constructor.

The recursive expression parser is defined with an explicit fuel parameter
(so that it is structurally recursive and kernel-reducible); the public
entry points fix the fuel at `sizeOf input + 1`, which is proven sufficient
(`parseFuel_irrelevant`), so the fuel never shows up in the statements.
-/

namespace ConnectTypes

/-- A JSON value.  Objects are association lists in source order; JSON numbers
are modelled as rationals (the Python floats in play are decimal literals). -/
inductive Json where
  | null : Json
  | bool (b : Bool) : Json
  | num (q : ℚ) : Json
  | str (s : String) : Json
  | arr (elems : List Json) : Json
  | obj (fields : List (String × Json)) : Json

compile_inductive% Json

/-- Key lookup in a JSON object (first binding wins, mirroring the unique
keys of a Python dict). -/
def lookupKey : List (String × Json) → String → Option Json
  | [], _ => none
  | (k', v) :: rest, k => if k' = k then some v else lookupKey rest k

theorem sizeOf_lookupKey {kvs : List (String × Json)} {k : String} {v : Json}
    (h : lookupKey kvs k = some v) : sizeOf v < sizeOf kvs := by
  induction kvs with
  | nil => simp [lookupKey] at h
  | cons p rest ih =>
    obtain ⟨k', v'⟩ := p
    by_cases hk : k' = k
    · simp [lookupKey, hk] at h
      subst h
      simp
      omega
    · simp [lookupKey, hk] at h
      have := ih h
      simp
      omega

/-- Structured validation errors: one constructor per distinct raise site /
pydantic error class reached by the embedded validators. -/
inductive VErr where
  /-- pydantic: a required field is absent. -/
  | missingField (name : String) : VErr
  /-- pydantic: the value of a field has the wrong JSON type. -/
  | wrongType (name : String) : VErr
  /-- pydantic: the top-level input is not an object. -/
  | notAnObject : VErr
  /-- pydantic: value not among the `Literal` comparison operators. -/
  | invalidEnumValue : VErr
  /-- Source `RangeSpec.check_min_le_max`: "MinProficiencyLevel must be <= MaxProficiencyLevel". -/
  | minGtMax : VErr
  /-- Source message "Range must be provided when ComparisonOperator is Range". -/
  | rangeRequired : VErr
  /-- Source message "ProficiencyLevel must not be set when ComparisonOperator is Range". -/
  | proficiencyForbidden : VErr
  /-- Source message "ProficiencyLevel must be provided when ComparisonOperator is NumberGreaterOrEqualTo". -/
  | proficiencyRequired : VErr
  /-- Source message "Range must not be set when ComparisonOperator is NumberGreaterOrEqualTo". -/
  | rangeForbidden : VErr
  /-- Source message "Compound expression must have exactly one of AndExpression or OrExpression". -/
  | compoundExactlyOne : VErr
  /-- Source message "AndExpression must be a list". -/
  | andNotList : VErr
  /-- Source message "AndExpression must not be empty". -/
  | andEmpty : VErr
  /-- Source message "OrExpression must be a list". -/
  | orNotList : VErr
  /-- Source message "OrExpression must not be empty". -/
  | orEmpty : VErr
  /-- Source `parse_expression_item`: "Expression items must be objects". -/
  | exprItemNotObject : VErr
  /-- Source `parse_expression_item`: "Unknown expression type in item: ...". -/
  | unknownExpressionType : VErr
  /-- Source `Step.parse_expression`: "Expression must be an object". -/
  | expressionNotObject : VErr
  /-- Source `Step.parse_expression`: "Invalid Expression value: ...". -/
  | invalidExpressionValue : VErr
  /-- Source message "DurationInSeconds must be positive" / the `gt=0` field constraint. -/
  | durationNotPositive : VErr
  /-- Source message "Steps must contain at least one step" / `min_length=1`. -/
  | stepsEmpty : VErr
  /-- Source message "Expiry is required for all steps except the last one" (a fixed
  message carrying no step index). -/
  | expiryRequiredExceptLast : VErr
  /-- Sentinel of the fuelled recursion; never returned by the public entry
  points, whose fuel is proven sufficient. -/
  | fuelExhausted : VErr
  deriving DecidableEq

/-- The `ComparisonOperator` literal type
(`Literal["Range", "NumberGreaterOrEqualTo"]`). -/
inductive ComparisonOp where
  | range : ComparisonOp
  | numberGreaterOrEqualTo : ComparisonOp
  deriving DecidableEq

/-- Source `RangeSpec` model. -/
structure RangeSpec where
  MinProficiencyLevel : ℚ
  MaxProficiencyLevel : ℚ
  deriving DecidableEq

/-- Source `AttributeCondition` model. -/
structure AttributeCondition where
  Name : String
  Value : String
  ProficiencyLevel : Option ℚ
  ComparisonOperator : ComparisonOp
  Range : Option RangeSpec
  deriving DecidableEq

/-- Source `ExpiryRule` model. -/
structure ExpiryRule where
  DurationInSeconds : Int
  deriving DecidableEq

/-- The validated expression tree: `AttributeConditionExpr`,
`NotAttributeConditionExpr` and `CompoundExpr` (the latter keeping both
optional operand lists, exactly as the Python `CompoundExpr` model does). -/
inductive Expr where
  | attrCond (c : AttributeCondition) : Expr
  | notAttrCond (c : AttributeCondition) : Expr
  | compound (AndExpression : Option (List Expr)) (OrExpression : Option (List Expr)) : Expr

/-- Source `Step` model. -/
structure Step where
  Expression : Expr
  Expiry : Option ExpiryRule

/-- Source `ProficiencyRoutingPayload` model. -/
structure ProficiencyRoutingPayload where
  Steps : List Step

/-- Source `RangeSpec.check_min_le_max` model validator. -/
def RangeSpec.check_min_le_max (r : RangeSpec) : Except VErr RangeSpec :=
  if r.MinProficiencyLevel > r.MaxProficiencyLevel then .error .minGtMax else .ok r

/-- Field-level validation of `RangeSpec` followed by `check_min_le_max`. -/
def parseRangeSpec (j : Json) : Except VErr RangeSpec :=
  match j with
  | .obj kvs =>
    match lookupKey kvs "MinProficiencyLevel" with
    | none => .error (.missingField "MinProficiencyLevel")
    | some (.num lo) =>
      match lookupKey kvs "MaxProficiencyLevel" with
      | none => .error (.missingField "MaxProficiencyLevel")
      | some (.num hi) => RangeSpec.check_min_le_max ⟨lo, hi⟩
      | some _ => .error (.wrongType "MaxProficiencyLevel")
    | some _ => .error (.wrongType "MinProficiencyLevel")
  | _ => .error (.wrongType "Range")

/-- Source `AttributeCondition.check_operator_field_consistency` model validator,
checks in source order. -/
def AttributeCondition.check_operator_field_consistency (c : AttributeCondition) :
    Except VErr AttributeCondition :=
  match c.ComparisonOperator with
  | .range =>
    if c.Range.isNone then .error .rangeRequired
    else if c.ProficiencyLevel.isSome then .error .proficiencyForbidden
    else .ok c
  | .numberGreaterOrEqualTo =>
    if c.ProficiencyLevel.isNone then .error .proficiencyRequired
    else if c.Range.isSome then .error .rangeForbidden
    else .ok c

/-- Field-level validation of `AttributeCondition` (fields read in
declaration order) followed by the `check_operator_field_consistency`
model validator. -/
def parseAttributeCondition (j : Json) : Except VErr AttributeCondition :=
  match j with
  | .obj kvs =>
    match lookupKey kvs "Name" with
    | none => .error (.missingField "Name")
    | some (.str name) =>
      match lookupKey kvs "Value" with
      | none => .error (.missingField "Value")
      | some (.str value) =>
        (match lookupKey kvs "ProficiencyLevel" with
         | none => .ok none
         | some .null => .ok none
         | some (.num q) => .ok (some q)
         | some _ => .error (.wrongType "ProficiencyLevel") : Except VErr (Option ℚ)).bind
        fun prof =>
        (match lookupKey kvs "ComparisonOperator" with
         | none => .error (.missingField "ComparisonOperator")
         | some (.str "Range") => .ok ComparisonOp.range
         | some (.str "NumberGreaterOrEqualTo") => .ok ComparisonOp.numberGreaterOrEqualTo
         | some _ => .error .invalidEnumValue : Except VErr ComparisonOp).bind
        fun op =>
        (match lookupKey kvs "Range" with
         | none => .ok none
         | some .null => .ok none
         | some rj => (parseRangeSpec rj).map some : Except VErr (Option RangeSpec)).bind
        fun rng =>
        AttributeCondition.check_operator_field_consistency
          ⟨name, value, prof, op, rng⟩
      | some _ => .error (.wrongType "Value")
    | some _ => .error (.wrongType "Name")
  | _ => .error (.wrongType "AttributeCondition")

/-- Source `ExpiryRule` validation: `DurationInSeconds` is a required integer with
the `gt=0` constraint (duplicated by `check_positive_duration`). -/
def parseExpiryRule (j : Json) : Except VErr ExpiryRule :=
  match j with
  | .obj kvs =>
    match lookupKey kvs "DurationInSeconds" with
    | none => .error (.missingField "DurationInSeconds")
    | some (.num q) =>
      if q.den = 1 then
        if q.num ≤ 0 then .error .durationNotPositive else .ok ⟨q.num⟩
      else .error (.wrongType "DurationInSeconds")
    | some _ => .error (.wrongType "DurationInSeconds")
  | _ => .error (.wrongType "Expiry")

/-- Whether key `k` is present in the object with a non-null value — the
notion of presence counted by `CompoundExpr.ensure_single_key`
(`k in values and values[k] is not None`). -/
def presentNonNull (kvs : List (String × Json)) (k : String) : Bool :=
  match lookupKey kvs k with
  | some .null => false
  | some _ => true
  | none => false

/-- Source `CompoundExpr.ensure_single_key`: exactly one of `AndExpression` /
`OrExpression` present with a non-null value. -/
def ensure_single_key (kvs : List (String × Json)) : Bool :=
  (presentNonNull kvs "AndExpression").xor (presentNonNull kvs "OrExpression")

mutual

/-- Fuelled `parse_expression_item`: dispatch on the discriminator key, in
source order; extra keys are ignored (pydantic default). -/
def parseItemF : Nat → Json → Except VErr Expr
  | 0, _ => .error .fuelExhausted
  | fuel + 1, .obj kvs =>
    match lookupKey kvs "AttributeCondition" with
    | some v => (parseAttributeCondition v).map .attrCond
    | none =>
      match lookupKey kvs "NotAttributeCondition" with
      | some v => (parseAttributeCondition v).map .notAttrCond
      | none =>
        if (lookupKey kvs "AndExpression").isSome || (lookupKey kvs "OrExpression").isSome then
          parseCompoundF fuel kvs
        else .error .unknownExpressionType
  | _ + 1, _ => .error .exprItemNotObject

/-- Fuelled `CompoundExpr(**values)`: `ensure_single_key` first
(mode="before"), then the `parse_and` / `parse_or` field validators in
field-declaration order. -/
def parseCompoundF : Nat → List (String × Json) → Except VErr Expr
  | 0, _ => .error .fuelExhausted
  | fuel + 1, kvs =>
    if !(ensure_single_key kvs) then .error .compoundExactlyOne
    else
      (parseOperandF fuel (lookupKey kvs "AndExpression") .andNotList .andEmpty).bind
      fun andE =>
      (parseOperandF fuel (lookupKey kvs "OrExpression") .orNotList .orEmpty).bind
      fun orE => .ok (.compound andE orE)

/-- Fuelled body shared by the `parse_and` / `parse_or` field validators
(identical in the source up to their messages, passed here as `notList` /
`empty`). -/
def parseOperandF : Nat → Option Json → VErr → VErr → Except VErr (Option (List Expr))
  | 0, _, _, _ => .error .fuelExhausted
  | _ + 1, none, _, _ => .ok none
  | _ + 1, some .null, _, _ => .ok none
  | fuel + 1, some (.arr xs), _, empty =>
    if xs.isEmpty then .error empty
    else (parseListF fuel xs).map some
  | _ + 1, some _, notList, _ => .error notList

/-- Fuelled elementwise parsing of an operand list via
`parse_expression_item`. -/
def parseListF : Nat → List Json → Except VErr (List Expr)
  | 0, _ => .error .fuelExhausted
  | _ + 1, [] => .ok []
  | fuel + 1, x :: rest =>
    (parseItemF fuel x).bind fun e =>
    (parseListF fuel rest).map fun es => e :: es

end

/-- Source `parse_expression_item` (module-level helper in the source). -/
def parse_expression_item (j : Json) : Except VErr Expr :=
  parseItemF (sizeOf j + 1) j

/-- Source `CompoundExpr(**values)` as invoked by the expression parsers. -/
def parseCompoundExpr (kvs : List (String × Json)) : Except VErr Expr :=
  parseCompoundF (sizeOf kvs + 1) kvs

/-- The `parse_and` / `parse_or` field-validator body applied to the raw
field value (`none` = key absent). -/
def parseOperand (v : Option Json) (notList empty : VErr) :
    Except VErr (Option (List Expr)) :=
  parseOperandF (sizeOf v) v notList empty

/-- Parse every element of an operand list with `parse_expression_item`. -/
def parseExprList (xs : List Json) : Except VErr (List Expr) :=
  parseListF (sizeOf xs + 1) xs

theorem one_le_sizeOf_json (j : Json) : 1 ≤ sizeOf j := by
  cases j <;> simp <;> omega

theorem one_le_sizeOf_fields (kvs : List (String × Json)) : 1 ≤ sizeOf kvs := by
  cases kvs <;> simp <;> omega

theorem one_le_sizeOf_optJson (v : Option Json) : 1 ≤ sizeOf v := by
  cases v <;> simp <;> try omega

theorem sizeOf_lookupKey_opt (kvs : List (String × Json)) (k : String) :
    sizeOf (lookupKey kvs k) ≤ sizeOf kvs := by
  cases hv : lookupKey kvs k with
  | none =>
    have := one_le_sizeOf_fields kvs
    simp
    omega
  | some w =>
    have := sizeOf_lookupKey hv
    simp
    omega

theorem parseFuel_irrelevant (fuel : Nat) :
    (∀ j, sizeOf j + 1 ≤ fuel → parseItemF fuel j = parseItemF (sizeOf j + 1) j)
  ∧ (∀ kvs, sizeOf kvs + 1 ≤ fuel →
      parseCompoundF fuel kvs = parseCompoundF (sizeOf kvs + 1) kvs)
  ∧ (∀ v nl em, sizeOf v ≤ fuel → parseOperandF fuel v nl em = parseOperandF (sizeOf v) v nl em)
  ∧ (∀ xs, sizeOf xs + 1 ≤ fuel → parseListF fuel xs = parseListF (sizeOf xs + 1) xs) := by
  induction fuel using Nat.strong_induction_on with
  | _ fuel ih =>
  refine ⟨?_, ?_, ?_, ?_⟩
  · intro j h
    obtain ⟨f, rfl⟩ : ∃ f, fuel = f + 1 := ⟨fuel - 1, by omega⟩
    match j with
    | .null | .bool _ | .num _ | .str _ | .arr _ => rfl
    | .obj kvs =>
      have hs : sizeOf (Json.obj kvs) + 1 = (sizeOf kvs + 1) + 1 := by simp; omega
      have hf : sizeOf kvs + 1 ≤ f := by simp at h; omega
      have key : parseCompoundF f kvs = parseCompoundF (sizeOf kvs + 1) kvs :=
        (ih f (by omega)).2.1 kvs hf
      rw [hs]
      simp only [parseItemF, key]
  · intro kvs h
    obtain ⟨f, rfl⟩ : ∃ f, fuel = f + 1 := ⟨fuel - 1, by omega⟩
    have hf : sizeOf kvs ≤ f := by omega
    have eA : parseOperandF f (lookupKey kvs "AndExpression") .andNotList .andEmpty
        = parseOperandF (sizeOf (lookupKey kvs "AndExpression"))
            (lookupKey kvs "AndExpression") .andNotList .andEmpty :=
      (ih f (by omega)).2.2.1 _ _ _ (le_trans (sizeOf_lookupKey_opt kvs _) hf)
    have eA2 : parseOperandF (sizeOf kvs) (lookupKey kvs "AndExpression") .andNotList .andEmpty
        = parseOperandF (sizeOf (lookupKey kvs "AndExpression"))
            (lookupKey kvs "AndExpression") .andNotList .andEmpty :=
      (ih (sizeOf kvs) (by omega)).2.2.1 _ _ _ (sizeOf_lookupKey_opt kvs _)
    have eO : parseOperandF f (lookupKey kvs "OrExpression") .orNotList .orEmpty
        = parseOperandF (sizeOf (lookupKey kvs "OrExpression"))
            (lookupKey kvs "OrExpression") .orNotList .orEmpty :=
      (ih f (by omega)).2.2.1 _ _ _ (le_trans (sizeOf_lookupKey_opt kvs _) hf)
    have eO2 : parseOperandF (sizeOf kvs) (lookupKey kvs "OrExpression") .orNotList .orEmpty
        = parseOperandF (sizeOf (lookupKey kvs "OrExpression"))
            (lookupKey kvs "OrExpression") .orNotList .orEmpty :=
      (ih (sizeOf kvs) (by omega)).2.2.1 _ _ _ (sizeOf_lookupKey_opt kvs _)
    simp only [parseCompoundF, eA, eA2, eO, eO2]
  · intro v nl em h
    obtain ⟨f, rfl⟩ : ∃ f, fuel = f + 1 := ⟨fuel - 1, by
      have := one_le_sizeOf_optJson v
      omega⟩
    match v with
    | none => rfl
    | some .null => rfl
    | some (.bool b) =>
      obtain ⟨g, hg⟩ : ∃ g, sizeOf (some (Json.bool b)) = g + 1 :=
        ⟨sizeOf (some (Json.bool b)) - 1, by
          have := one_le_sizeOf_optJson (some (Json.bool b))
          omega⟩
      rw [hg]
      simp only [parseOperandF]
    | some (.num q) =>
      obtain ⟨g, hg⟩ : ∃ g, sizeOf (some (Json.num q)) = g + 1 :=
        ⟨sizeOf (some (Json.num q)) - 1, by
          have := one_le_sizeOf_optJson (some (Json.num q))
          omega⟩
      rw [hg]
      simp only [parseOperandF]
    | some (.str s) =>
      obtain ⟨g, hg⟩ : ∃ g, sizeOf (some (Json.str s)) = g + 1 :=
        ⟨sizeOf (some (Json.str s)) - 1, by
          have := one_le_sizeOf_optJson (some (Json.str s))
          omega⟩
      rw [hg]
      simp only [parseOperandF]
    | some (.obj kvs) =>
      obtain ⟨g, hg⟩ : ∃ g, sizeOf (some (Json.obj kvs)) = g + 1 :=
        ⟨sizeOf (some (Json.obj kvs)) - 1, by
          have := one_le_sizeOf_optJson (some (Json.obj kvs))
          omega⟩
      rw [hg]
      simp only [parseOperandF]
    | some (.arr xs) =>
      have hs : sizeOf (some (Json.arr xs)) = (sizeOf xs + 1) + 1 := by simp; omega
      have hf : sizeOf xs + 1 ≤ f := by simp at h; omega
      have key : parseListF f xs = parseListF (sizeOf xs + 1) xs :=
        (ih f (by omega)).2.2.2 xs hf
      rw [hs]
      simp only [parseOperandF, key]
  · intro xs h
    obtain ⟨f, rfl⟩ : ∃ f, fuel = f + 1 := ⟨fuel - 1, by omega⟩
    match xs with
    | [] => rfl
    | x :: rest =>
      have hs : sizeOf (x :: rest) + 1 = (sizeOf x + sizeOf rest + 1) + 1 := by simp; omega
      have hf1 : sizeOf x + 1 ≤ f := by simp at h; omega
      have hf2 : sizeOf rest + 1 ≤ f := by simp at h; omega
      have hg : sizeOf x + sizeOf rest + 1 < f + 1 := by simp at h; omega
      have k1 : parseItemF f x = parseItemF (sizeOf x + 1) x :=
        (ih f (by omega)).1 x hf1
      have k2 : parseItemF (sizeOf x + sizeOf rest + 1) x = parseItemF (sizeOf x + 1) x :=
        (ih (sizeOf x + sizeOf rest + 1) hg).1 x (by omega)
      have k3 : parseListF f rest = parseListF (sizeOf rest + 1) rest :=
        (ih f (by omega)).2.2.2 rest hf2
      have k4 : parseListF (sizeOf x + sizeOf rest + 1) rest
          = parseListF (sizeOf rest + 1) rest :=
        (ih (sizeOf x + sizeOf rest + 1) hg).2.2.2 rest (by omega)
      rw [hs]
      simp only [parseListF, k1, k2, k3, k4]

/-! Fuel-free unfolding equations for the public entry points. -/

theorem parse_expression_item_obj (kvs : List (String × Json)) :
    parse_expression_item (.obj kvs) =
      match lookupKey kvs "AttributeCondition" with
      | some v => (parseAttributeCondition v).map .attrCond
      | none =>
        match lookupKey kvs "NotAttributeCondition" with
        | some v => (parseAttributeCondition v).map .notAttrCond
        | none =>
          if (lookupKey kvs "AndExpression").isSome
              || (lookupKey kvs "OrExpression").isSome then
            parseCompoundExpr kvs
          else .error .unknownExpressionType := by
  show parseItemF (sizeOf (Json.obj kvs) + 1) (Json.obj kvs) = _
  have hs : sizeOf (Json.obj kvs) + 1 = (sizeOf kvs + 1) + 1 := by simp; omega
  have key : parseCompoundF (sizeOf kvs + 1) kvs = parseCompoundExpr kvs := rfl
  rw [hs]
  simp only [parseItemF, key]

theorem parse_expression_item_not_obj (j : Json) (h : ∀ kvs, j ≠ .obj kvs) :
    parse_expression_item j = .error .exprItemNotObject := by
  match j with
  | .null | .bool _ | .num _ | .str _ | .arr _ => rfl
  | .obj kvs => exact absurd rfl (h kvs)

theorem parseCompoundExpr_def (kvs : List (String × Json)) :
    parseCompoundExpr kvs =
      if !(ensure_single_key kvs) then .error .compoundExactlyOne
      else
        (parseOperand (lookupKey kvs "AndExpression") .andNotList .andEmpty).bind
        fun andE =>
        (parseOperand (lookupKey kvs "OrExpression") .orNotList .orEmpty).bind
        fun orE => .ok (.compound andE orE) := by
  show parseCompoundF (sizeOf kvs + 1) kvs = _
  have eA : parseOperandF (sizeOf kvs) (lookupKey kvs "AndExpression") .andNotList .andEmpty
      = parseOperand (lookupKey kvs "AndExpression") .andNotList .andEmpty :=
    (parseFuel_irrelevant (sizeOf kvs)).2.2.1 _ _ _ (sizeOf_lookupKey_opt kvs _)
  have eO : parseOperandF (sizeOf kvs) (lookupKey kvs "OrExpression") .orNotList .orEmpty
      = parseOperand (lookupKey kvs "OrExpression") .orNotList .orEmpty :=
    (parseFuel_irrelevant (sizeOf kvs)).2.2.1 _ _ _ (sizeOf_lookupKey_opt kvs _)
  simp only [parseCompoundF, eA, eO]

theorem parseOperand_none (nl em : VErr) : parseOperand none nl em = .ok none := rfl

theorem parseOperand_null (nl em : VErr) :
    parseOperand (some .null) nl em = .ok none := rfl

theorem parseOperand_arr (xs : List Json) (nl em : VErr) :
    parseOperand (some (.arr xs)) nl em =
      if xs.isEmpty then .error em else (parseExprList xs).map some := by
  show parseOperandF (sizeOf (some (Json.arr xs))) (some (.arr xs)) nl em = _
  have hs : sizeOf (some (Json.arr xs)) = (sizeOf xs + 1) + 1 := by simp; omega
  rw [hs]
  simp only [parseOperandF]
  rfl

theorem parseOperand_not_list (j : Json) (nl em : VErr)
    (hnull : j ≠ .null) (harr : ∀ xs, j ≠ .arr xs) :
    parseOperand (some j) nl em = .error nl := by
  match j with
  | .null => exact absurd rfl hnull
  | .arr xs => exact absurd rfl (harr xs)
  | .bool b =>
    show parseOperandF (sizeOf (some (Json.bool b))) _ nl em = _
    obtain ⟨g, hg⟩ : ∃ g, sizeOf (some (Json.bool b)) = g + 1 :=
      ⟨sizeOf (some (Json.bool b)) - 1, by
        have := one_le_sizeOf_optJson (some (Json.bool b))
        omega⟩
    rw [hg]
    simp only [parseOperandF]
  | .num q =>
    show parseOperandF (sizeOf (some (Json.num q))) _ nl em = _
    obtain ⟨g, hg⟩ : ∃ g, sizeOf (some (Json.num q)) = g + 1 :=
      ⟨sizeOf (some (Json.num q)) - 1, by
        have := one_le_sizeOf_optJson (some (Json.num q))
        omega⟩
    rw [hg]
    simp only [parseOperandF]
  | .str s =>
    show parseOperandF (sizeOf (some (Json.str s))) _ nl em = _
    obtain ⟨g, hg⟩ : ∃ g, sizeOf (some (Json.str s)) = g + 1 :=
      ⟨sizeOf (some (Json.str s)) - 1, by
        have := one_le_sizeOf_optJson (some (Json.str s))
        omega⟩
    rw [hg]
    simp only [parseOperandF]
  | .obj kvs =>
    show parseOperandF (sizeOf (some (Json.obj kvs))) _ nl em = _
    obtain ⟨g, hg⟩ : ∃ g, sizeOf (some (Json.obj kvs)) = g + 1 :=
      ⟨sizeOf (some (Json.obj kvs)) - 1, by
        have := one_le_sizeOf_optJson (some (Json.obj kvs))
        omega⟩
    rw [hg]
    simp only [parseOperandF]

theorem parseExprList_nil : parseExprList [] = .ok [] := rfl

theorem parseExprList_cons (x : Json) (rest : List Json) :
    parseExprList (x :: rest) =
      (parse_expression_item x).bind fun e =>
      (parseExprList rest).map fun es => e :: es := by
  show parseListF (sizeOf (x :: rest) + 1) (x :: rest) = _
  have hs : sizeOf (x :: rest) + 1 = (sizeOf x + sizeOf rest + 1) + 1 := by simp; omega
  have k1 : parseItemF (sizeOf x + sizeOf rest + 1) x = parse_expression_item x :=
    (parseFuel_irrelevant _).1 x (by omega)
  have k2 : parseListF (sizeOf x + sizeOf rest + 1) rest = parseExprList rest :=
    (parseFuel_irrelevant _).2.2.2 rest (by omega)
  rw [hs]
  simp only [parseListF, k1, k2]

/-- Source `Step.parse_expression`: same dispatch as `parse_expression_item`, with
the `Step`-specific messages. -/
def Step.parse_expression (j : Json) : Except VErr Expr :=
  match j with
  | .obj kvs =>
    match lookupKey kvs "AttributeCondition" with
    | some v => (parseAttributeCondition v).map .attrCond
    | none =>
      match lookupKey kvs "NotAttributeCondition" with
      | some v => (parseAttributeCondition v).map .notAttrCond
      | none =>
        if (lookupKey kvs "AndExpression").isSome
            || (lookupKey kvs "OrExpression").isSome then
          parseCompoundExpr kvs
        else .error .invalidExpressionValue
  | _ => .error .expressionNotObject

/-- Field-level validation of one `Step`: required `Expression` (through
`Step.parse_expression`) and optional `Expiry`. -/
def parseStep (j : Json) : Except VErr Step :=
  match j with
  | .obj kvs =>
    match lookupKey kvs "Expression" with
    | none => .error (.missingField "Expression")
    | some ej =>
      (Step.parse_expression ej).bind fun e =>
      (match lookupKey kvs "Expiry" with
       | none => .ok none
       | some .null => .ok none
       | some xj => (parseExpiryRule xj).map some : Except VErr (Option ExpiryRule)).bind
      fun exp => .ok ⟨e, exp⟩
  | _ => .error (.wrongType "Step")

/-- Parse every element of `Steps` as a `Step`. -/
def parseSteps : List Json → Except VErr (List Step)
  | [] => .ok []
  | x :: rest =>
    (parseStep x).bind fun s =>
    (parseSteps rest).map fun ss => s :: ss

/-- Source `ProficiencyRoutingPayload.validate_expiry_rules` model validator:
every step but the last must carry an `Expiry`; with at most one step
nothing is checked. -/
def ProficiencyRoutingPayload.validate_expiry_rules (p : ProficiencyRoutingPayload) :
    Except VErr ProficiencyRoutingPayload :=
  if p.Steps.length ≤ 1 then .ok p
  else if p.Steps.dropLast.any fun s => s.Expiry.isNone then
    .error .expiryRequiredExceptLast
  else .ok p

/-- Source `ProficiencyRoutingPayload.model_validate`: required `Steps` list
(`min_length=1` / `check_steps_not_empty`), elementwise `Step` parsing,
then the `validate_expiry_rules` model validator. -/
def parseProficiencyRoutingPayload (j : Json) : Except VErr ProficiencyRoutingPayload :=
  match j with
  | .obj kvs =>
    match lookupKey kvs "Steps" with
    | none => .error (.missingField "Steps")
    | some (.arr xs) =>
      if xs.isEmpty then .error .stepsEmpty
      else (parseSteps xs).bind fun steps =>
        ProficiencyRoutingPayload.validate_expiry_rules ⟨steps⟩
    | some _ => .error (.wrongType "Steps")
  | _ => .error .notAnObject

/-! ## Contact-flow event schema (`contact_flow_event/type.py`) -/

/-- Source `ConnectContactFlowChannel` enum. -/
inductive ConnectContactFlowChannel where
  | VOICE | CHAT | TASK | EMAIL
  deriving DecidableEq

/-- Source `ConnectContactFlowEndpointType` enum. -/
inductive ConnectContactFlowEndpointType where
  | TELEPHONE_NUMBER | EMAIL_ADDRESS
  deriving DecidableEq

/-- Source `ConnectContactFlowInitiationMethod` enum. -/
inductive ConnectContactFlowInitiationMethod where
  | INBOUND | OUTBOUND | TRANSFER | CALLBACK | API | DISCONNECT | FLOW
  deriving DecidableEq

/-- Source `ConnectContactReferenceType` enum. -/
inductive ConnectContactReferenceType where
  | URL | ATTACHMENT | STRING | CONTACT_ANALYSIS | NUMBER | DATE | EMAIL | EMAIL_MESSAGE
  deriving DecidableEq

/-- Source `ConnectContactReferenceStatus` enum. -/
inductive ConnectContactReferenceStatus where
  | AVAILABLE | DELETED | APPROVED | REJECTED | PROCESSING | FAILED
  deriving DecidableEq

/-- Source `ConnectContactFlowEndpoint` model. -/
structure ConnectContactFlowEndpoint where
  Address : String
  «Type» : ConnectContactFlowEndpointType
  DisplayName : Option String
  deriving DecidableEq

/-- Source `ConnectContactFlowQueue` model. -/
structure ConnectContactFlowQueue where
  ARN : String
  Name : String
  deriving DecidableEq

/-- Source `ConnectContactFlowMediaStreamAudio` model. -/
structure ConnectContactFlowMediaStreamAudio where
  StartFragmentNumber : Option String
  StartTimestamp : Option String
  StreamARN : Option String
  deriving DecidableEq

/-- Source `ConnectContactFlowMediaStreamCustomer` model. -/
structure ConnectContactFlowMediaStreamCustomer where
  Audio : ConnectContactFlowMediaStreamAudio
  deriving DecidableEq

/-- Source `ConnectContactFlowMediaStreams` model. -/
structure ConnectContactFlowMediaStreams where
  Customer : ConnectContactFlowMediaStreamCustomer
  deriving DecidableEq

/-- Source `ConnectContactReferenceFields` model. -/
structure ConnectContactReferenceFields where
  Arn : Option String
  Status : Option ConnectContactReferenceStatus
  StatusReason : Option String
  «Type» : Option ConnectContactReferenceType
  Value : Option String
  deriving DecidableEq

/-- Source `ConnectContactSegmentAttributes` model. -/
structure ConnectContactSegmentAttributes where
  ValueArn : Option String
  ValueInteger : Option ℚ
  ValueList : Option (List String)
  ValueMap : Option (List (String × String))
  ValueString : Option String
  deriving DecidableEq

/-- Source `ConnectContactFlowAdditionalEmailRecipients` model. -/
structure ConnectContactFlowAdditionalEmailRecipients where
  CcList : List String
  ToList : List String
  deriving DecidableEq

/-- Source `ConnectContactFlowData` model (field optionality exactly as declared
in the source — in particular `AwsRegion` is a required `str` field). -/
structure ConnectContactFlowData where
  Attributes : List (String × String)
  AwsRegion : String
  Channel : ConnectContactFlowChannel
  ContactId : String
  CustomerEndpoint : Option ConnectContactFlowEndpoint
  CustomerId : Option String
  Description : Option String
  InitialContactId : String
  InitiationMethod : ConnectContactFlowInitiationMethod
  InstanceARN : String
  LanguageCode : Option String
  MediaStreams : ConnectContactFlowMediaStreams
  Name : Option String
  PreviousContactId : String
  Queue : Option ConnectContactFlowQueue
  References : Option (List (String × ConnectContactReferenceFields))
  RelatedContactId : Option String
  SegmentAttributes : Option ConnectContactSegmentAttributes
  SystemEndpoint : Option ConnectContactFlowEndpoint
  Tags : Option (List (String × String))
  AdditionalEmailRecipients : Option ConnectContactFlowAdditionalEmailRecipients
  deriving DecidableEq

/-- Source `ConnectContactFlowEventDetails` model. -/
structure ConnectContactFlowEventDetails where
  ContactData : ConnectContactFlowData
  Parameters : List (String × String)
  deriving DecidableEq

/-- Source `ConnectContactFlowEvent` model. -/
structure ConnectContactFlowEvent where
  Details : ConnectContactFlowEventDetails
  deriving DecidableEq

/-- A required `str` field. -/
def reqStr (kvs : List (String × Json)) (name : String) : Except VErr String :=
  match lookupKey kvs name with
  | none => .error (.missingField name)
  | some (.str s) => .ok s
  | some _ => .error (.wrongType name)

/-- An `Optional[str]` field with default `None`. -/
def optStr (kvs : List (String × Json)) (name : String) : Except VErr (Option String) :=
  match lookupKey kvs name with
  | none => .ok none
  | some .null => .ok none
  | some (.str s) => .ok (some s)
  | some _ => .error (.wrongType name)

/-- A `dict[str, str]` value. -/
def parseStrMap (j : Json) (name : String) : Except VErr (List (String × String)) :=
  match j with
  | .obj kvs => goStrMap kvs name
  | _ => .error (.wrongType name)
where
  /-- Values of a `dict[str, str]` must all be strings. -/
  goStrMap : List (String × Json) → String → Except VErr (List (String × String))
    | [], _ => .ok []
    | (k, .str s) :: rest, name => (goStrMap rest name).map fun m => (k, s) :: m
    | (_, _) :: _, name => .error (.wrongType name)

/-- A `list[str]` value. -/
def parseStrList (j : Json) (name : String) : Except VErr (List String) :=
  match j with
  | .arr xs => goStrList xs name
  | _ => .error (.wrongType name)
where
  /-- Elements of a `list[str]` must all be strings. -/
  goStrList : List Json → String → Except VErr (List String)
    | [], _ => .ok []
    | .str s :: rest, name => (goStrList rest name).map fun m => s :: m
    | _ :: _, name => .error (.wrongType name)

/-- An optional field parsed by `f` when present and non-null. -/
def optField {α : Type} (kvs : List (String × Json)) (name : String)
    (f : Json → Except VErr α) : Except VErr (Option α) :=
  match lookupKey kvs name with
  | none => .ok none
  | some .null => .ok none
  | some v => (f v).map some

/-- Source `ConnectContactFlowChannel` enum decoding; unknown values rejected. -/
def parseChannel (j : Json) : Except VErr ConnectContactFlowChannel :=
  match j with
  | .str "VOICE" => .ok .VOICE
  | .str "CHAT" => .ok .CHAT
  | .str "TASK" => .ok .TASK
  | .str "EMAIL" => .ok .EMAIL
  | _ => .error .invalidEnumValue

/-- Source `ConnectContactFlowInitiationMethod` enum decoding. -/
def parseInitiationMethod (j : Json) : Except VErr ConnectContactFlowInitiationMethod :=
  match j with
  | .str "INBOUND" => .ok .INBOUND
  | .str "OUTBOUND" => .ok .OUTBOUND
  | .str "TRANSFER" => .ok .TRANSFER
  | .str "CALLBACK" => .ok .CALLBACK
  | .str "API" => .ok .API
  | .str "DISCONNECT" => .ok .DISCONNECT
  | .str "FLOW" => .ok .FLOW
  | _ => .error .invalidEnumValue

/-- Source `ConnectContactFlowEndpointType` enum decoding. -/
def parseEndpointType (j : Json) : Except VErr ConnectContactFlowEndpointType :=
  match j with
  | .str "TELEPHONE_NUMBER" => .ok .TELEPHONE_NUMBER
  | .str "EMAIL_ADDRESS" => .ok .EMAIL_ADDRESS
  | _ => .error .invalidEnumValue

/-- Source `ConnectContactReferenceStatus` enum decoding. -/
def parseReferenceStatus (j : Json) : Except VErr ConnectContactReferenceStatus :=
  match j with
  | .str "AVAILABLE" => .ok .AVAILABLE
  | .str "DELETED" => .ok .DELETED
  | .str "APPROVED" => .ok .APPROVED
  | .str "REJECTED" => .ok .REJECTED
  | .str "PROCESSING" => .ok .PROCESSING
  | .str "FAILED" => .ok .FAILED
  | _ => .error .invalidEnumValue

/-- Source `ConnectContactReferenceType` enum decoding. -/
def parseReferenceType (j : Json) : Except VErr ConnectContactReferenceType :=
  match j with
  | .str "URL" => .ok .URL
  | .str "ATTACHMENT" => .ok .ATTACHMENT
  | .str "STRING" => .ok .STRING
  | .str "CONTACT_ANALYSIS" => .ok .CONTACT_ANALYSIS
  | .str "NUMBER" => .ok .NUMBER
  | .str "DATE" => .ok .DATE
  | .str "EMAIL" => .ok .EMAIL
  | .str "EMAIL_MESSAGE" => .ok .EMAIL_MESSAGE
  | _ => .error .invalidEnumValue

/-- Source `ConnectContactFlowEndpoint` decoding. -/
def parseEndpoint (j : Json) : Except VErr ConnectContactFlowEndpoint :=
  match j with
  | .obj kvs =>
    (reqStr kvs "Address").bind fun address =>
    (match lookupKey kvs "Type" with
     | none => .error (.missingField "Type")
     | some v => parseEndpointType v : Except VErr ConnectContactFlowEndpointType).bind
    fun ty =>
    (optStr kvs "DisplayName").bind fun dn =>
    .ok ⟨address, ty, dn⟩
  | _ => .error (.wrongType "Endpoint")

/-- Source `ConnectContactFlowQueue` decoding. -/
def parseQueue (j : Json) : Except VErr ConnectContactFlowQueue :=
  match j with
  | .obj kvs =>
    (reqStr kvs "ARN").bind fun arn =>
    (reqStr kvs "Name").bind fun name =>
    .ok ⟨arn, name⟩
  | _ => .error (.wrongType "Queue")

/-- Source `ConnectContactFlowMediaStreamAudio` decoding (all fields optional). -/
def parseMediaStreamAudio (j : Json) : Except VErr ConnectContactFlowMediaStreamAudio :=
  match j with
  | .obj kvs =>
    (optStr kvs "StartFragmentNumber").bind fun sfn =>
    (optStr kvs "StartTimestamp").bind fun st =>
    (optStr kvs "StreamARN").bind fun sa =>
    .ok ⟨sfn, st, sa⟩
  | _ => .error (.wrongType "Audio")

/-- Source `ConnectContactFlowMediaStreamCustomer` decoding (`Audio` required). -/
def parseMediaStreamCustomer (j : Json) :
    Except VErr ConnectContactFlowMediaStreamCustomer :=
  match j with
  | .obj kvs =>
    match lookupKey kvs "Audio" with
    | none => .error (.missingField "Audio")
    | some v => (parseMediaStreamAudio v).map fun a => ⟨a⟩
  | _ => .error (.wrongType "Customer")

/-- Source `ConnectContactFlowMediaStreams` decoding (`Customer` required). -/
def parseMediaStreams (j : Json) : Except VErr ConnectContactFlowMediaStreams :=
  match j with
  | .obj kvs =>
    match lookupKey kvs "Customer" with
    | none => .error (.missingField "Customer")
    | some v => (parseMediaStreamCustomer v).map fun c => ⟨c⟩
  | _ => .error (.wrongType "MediaStreams")

/-- Source `ConnectContactReferenceFields` decoding (all fields optional). -/
def parseReferenceFields (j : Json) : Except VErr ConnectContactReferenceFields :=
  match j with
  | .obj kvs =>
    (optStr kvs "Arn").bind fun arn =>
    (optField kvs "Status" parseReferenceStatus).bind fun status =>
    (optStr kvs "StatusReason").bind fun sr =>
    (optField kvs "Type" parseReferenceType).bind fun ty =>
    (optStr kvs "Value").bind fun v =>
    .ok ⟨arn, status, sr, ty, v⟩
  | _ => .error (.wrongType "References")

/-- A `dict[str, ConnectContactReferenceFields]` value. -/
def parseReferencesMap (j : Json) :
    Except VErr (List (String × ConnectContactReferenceFields)) :=
  match j with
  | .obj kvs => goRefs kvs
  | _ => .error (.wrongType "References")
where
  /-- Each value of the references map is a `ConnectContactReferenceFields`. -/
  goRefs : List (String × Json) →
      Except VErr (List (String × ConnectContactReferenceFields))
    | [] => .ok []
    | (k, v) :: rest =>
      (parseReferenceFields v).bind fun r =>
      (goRefs rest).map fun m => (k, r) :: m

/-- Source `ConnectContactSegmentAttributes` decoding (all fields optional). -/
def parseSegmentAttributes (j : Json) : Except VErr ConnectContactSegmentAttributes :=
  match j with
  | .obj kvs =>
    (optStr kvs "ValueArn").bind fun va =>
    (match lookupKey kvs "ValueInteger" with
     | none => .ok none
     | some .null => .ok none
     | some (.num q) => .ok (some q)
     | some _ => .error (.wrongType "ValueInteger") : Except VErr (Option ℚ)).bind
    fun vi =>
    (optField kvs "ValueList" (parseStrList · "ValueList")).bind fun vl =>
    (optField kvs "ValueMap" (parseStrMap · "ValueMap")).bind fun vm =>
    (optStr kvs "ValueString").bind fun vs =>
    .ok ⟨va, vi, vl, vm, vs⟩
  | _ => .error (.wrongType "SegmentAttributes")

/-- Source `ConnectContactFlowAdditionalEmailRecipients` decoding
(`CcList` / `ToList` required). -/
def parseAdditionalEmailRecipients (j : Json) :
    Except VErr ConnectContactFlowAdditionalEmailRecipients :=
  match j with
  | .obj kvs =>
    (match lookupKey kvs "CcList" with
     | none => .error (.missingField "CcList")
     | some v => parseStrList v "CcList" : Except VErr (List String)).bind
    fun cc =>
    (match lookupKey kvs "ToList" with
     | none => .error (.missingField "ToList")
     | some v => parseStrList v "ToList" : Except VErr (List String)).bind
    fun toL =>
    .ok ⟨cc, toL⟩
  | _ => .error (.wrongType "AdditionalEmailRecipients")

/-- Source `ConnectContactFlowData` decoding: each field in declaration order,
required fields exactly those declared `Field(...)` in the source. -/
def parseConnectContactFlowData (j : Json) : Except VErr ConnectContactFlowData :=
  match j with
  | .obj kvs =>
    (match lookupKey kvs "Attributes" with
     | none => .error (.missingField "Attributes")
     | some v => parseStrMap v "Attributes" : Except VErr (List (String × String))).bind
    fun attrs =>
    (reqStr kvs "AwsRegion").bind fun awsRegion =>
    (match lookupKey kvs "Channel" with
     | none => .error (.missingField "Channel")
     | some v => parseChannel v : Except VErr ConnectContactFlowChannel).bind
    fun channel =>
    (reqStr kvs "ContactId").bind fun contactId =>
    (optField kvs "CustomerEndpoint" parseEndpoint).bind fun custEp =>
    (optStr kvs "CustomerId").bind fun custId =>
    (optStr kvs "Description").bind fun desc =>
    (reqStr kvs "InitialContactId").bind fun initialContactId =>
    (match lookupKey kvs "InitiationMethod" with
     | none => .error (.missingField "InitiationMethod")
     | some v => parseInitiationMethod v :
        Except VErr ConnectContactFlowInitiationMethod).bind
    fun initiation =>
    (reqStr kvs "InstanceARN").bind fun instanceARN =>
    (optStr kvs "LanguageCode").bind fun lang =>
    (match lookupKey kvs "MediaStreams" with
     | none => .error (.missingField "MediaStreams")
     | some v => parseMediaStreams v : Except VErr ConnectContactFlowMediaStreams).bind
    fun media =>
    (optStr kvs "Name").bind fun name =>
    (reqStr kvs "PreviousContactId").bind fun previousContactId =>
    (optField kvs "Queue" parseQueue).bind fun queue =>
    (optField kvs "References" parseReferencesMap).bind fun refs =>
    (optStr kvs "RelatedContactId").bind fun related =>
    (optField kvs "SegmentAttributes" parseSegmentAttributes).bind fun seg =>
    (optField kvs "SystemEndpoint" parseEndpoint).bind fun sysEp =>
    (optField kvs "Tags" (parseStrMap · "Tags")).bind fun tags =>
    (optField kvs "AdditionalEmailRecipients" parseAdditionalEmailRecipients).bind
    fun aer =>
    .ok ⟨attrs, awsRegion, channel, contactId, custEp, custId, desc, initialContactId,
      initiation, instanceARN, lang, media, name, previousContactId, queue, refs,
      related, seg, sysEp, tags, aer⟩
  | _ => .error (.wrongType "ContactData")

/-- Source `ConnectContactFlowEventDetails` decoding. -/
def parseConnectContactFlowEventDetails (j : Json) :
    Except VErr ConnectContactFlowEventDetails :=
  match j with
  | .obj kvs =>
    (match lookupKey kvs "ContactData" with
     | none => .error (.missingField "ContactData")
     | some v => parseConnectContactFlowData v : Except VErr ConnectContactFlowData).bind
    fun cd =>
    (match lookupKey kvs "Parameters" with
     | none => .error (.missingField "Parameters")
     | some v => parseStrMap v "Parameters" : Except VErr (List (String × String))).bind
    fun params =>
    .ok ⟨cd, params⟩
  | _ => .error (.wrongType "Details")

/-- Source `ConnectContactFlowEvent` decoding (top level). -/
def parseConnectContactFlowEvent (j : Json) : Except VErr ConnectContactFlowEvent :=
  match j with
  | .obj kvs =>
    match lookupKey kvs "Details" with
    | none => .error (.missingField "Details")
    | some v => (parseConnectContactFlowEventDetails v).map fun d => ⟨d⟩
  | _ => .error .notAnObject

/-! ## Canonical JSON encoding of a validated routing tree

Modelled from the spec: the repository has no bespoke encoder (serialization
is the pydantic `model_dump`), and the round-trip property of the spec speaks of
"encoding a validated tree back to its canonical JSON form".  The canonical
form emits every model field in declaration order, `None` as JSON `null`. -/

/-- Modelled from the spec: canonical JSON form of a `RangeSpec`. -/
def encodeRangeSpec (r : RangeSpec) : Json :=
  .obj [("MinProficiencyLevel", .num r.MinProficiencyLevel),
        ("MaxProficiencyLevel", .num r.MaxProficiencyLevel)]

/-- Modelled from the spec: canonical JSON form of the comparison operator. -/
def encodeComparisonOp : ComparisonOp → Json
  | .range => .str "Range"
  | .numberGreaterOrEqualTo => .str "NumberGreaterOrEqualTo"

/-- Modelled from the spec: canonical JSON form of an `AttributeCondition`. -/
def encodeAttributeCondition (c : AttributeCondition) : Json :=
  .obj [("Name", .str c.Name),
        ("Value", .str c.Value),
        ("ProficiencyLevel", match c.ProficiencyLevel with
          | none => .null
          | some q => .num q),
        ("ComparisonOperator", encodeComparisonOp c.ComparisonOperator),
        ("Range", match c.Range with
          | none => .null
          | some r => encodeRangeSpec r)]

mutual

/-- Modelled from the spec: canonical JSON form of an expression node. -/
def encodeExpr : Expr → Json
  | .attrCond c => .obj [("AttributeCondition", encodeAttributeCondition c)]
  | .notAttrCond c => .obj [("NotAttributeCondition", encodeAttributeCondition c)]
  | .compound andE orE =>
    .obj [("AndExpression", encodeOperand andE), ("OrExpression", encodeOperand orE)]

/-- Modelled from the spec: canonical JSON form of an optional operand list. -/
def encodeOperand : Option (List Expr) → Json
  | none => .null
  | some xs => .arr (encodeExprList xs)

/-- Modelled from the spec: canonical JSON forms of the operand elements. -/
def encodeExprList : List Expr → List Json
  | [] => []
  | e :: rest => encodeExpr e :: encodeExprList rest

end

/-- Modelled from the spec: canonical JSON form of an `ExpiryRule`. -/
def encodeExpiryRule (e : ExpiryRule) : Json :=
  .obj [("DurationInSeconds", .num (e.DurationInSeconds : ℚ))]

/-- Modelled from the spec: canonical JSON form of a `Step`. -/
def encodeStep (s : Step) : Json :=
  .obj [("Expression", encodeExpr s.Expression),
        ("Expiry", match s.Expiry with
          | none => .null
          | some e => encodeExpiryRule e)]

/-- Modelled from the spec: canonical JSON form of the payload. -/
def encodeProficiencyRoutingPayload (p : ProficiencyRoutingPayload) : Json :=
  .obj [("Steps", .arr (p.Steps.map encodeStep))]

/-! ## Invariants established by a successful parse -/

/-- Source `RangeSpec` invariant: `min ≤ max`. -/
def RangeWF (r : RangeSpec) : Prop :=
  r.MinProficiencyLevel ≤ r.MaxProficiencyLevel

/-- Operator/field coupling: `Range` present exactly for the `Range`
operator, `ProficiencyLevel` present exactly for `NumberGreaterOrEqualTo`. -/
def OperatorFieldsConsistent (c : AttributeCondition) : Prop :=
  (c.ComparisonOperator = .range → c.Range.isSome ∧ c.ProficiencyLevel = none)
  ∧ (c.ComparisonOperator = .numberGreaterOrEqualTo →
      c.ProficiencyLevel.isSome ∧ c.Range = none)

/-- Source `AttributeCondition` invariant: operator/field coupling and the range
invariant of a present range. -/
def AttrWF (c : AttributeCondition) : Prop :=
  OperatorFieldsConsistent c ∧ ∀ r, c.Range = some r → RangeWF r

/-- Expression-tree invariant: leaves carry well-formed conditions, compound
nodes carry exactly one non-empty operand list of well-formed children. -/
inductive ExprWF : Expr → Prop where
  | attrCond (c : AttributeCondition) : AttrWF c → ExprWF (.attrCond c)
  | notAttrCond (c : AttributeCondition) : AttrWF c → ExprWF (.notAttrCond c)
  | andE (xs : List Expr) : xs ≠ [] → (∀ e ∈ xs, ExprWF e) →
      ExprWF (.compound (some xs) none)
  | orE (xs : List Expr) : xs ≠ [] → (∀ e ∈ xs, ExprWF e) →
      ExprWF (.compound none (some xs))

/-- Source `ExpiryRule` invariant: positive duration. -/
def ExpiryWF (e : ExpiryRule) : Prop := 0 < e.DurationInSeconds

/-- Source `Step` invariant. -/
def StepWF (s : Step) : Prop :=
  ExprWF s.Expression ∧ ∀ e, s.Expiry = some e → ExpiryWF e

/-- Source `ProficiencyRoutingPayload` invariant: a non-empty step list of
well-formed steps in which every step but the last carries an expiry. -/
def PayloadWF (p : ProficiencyRoutingPayload) : Prop :=
  p.Steps ≠ [] ∧ (∀ s ∈ p.Steps, StepWF s)
  ∧ ∀ s ∈ p.Steps.dropLast, s.Expiry ≠ none

/-! ## Helper lemmas -/

theorem bind_ok {α β : Type} {ea : Except VErr α} {f : α → Except VErr β} {b : β}
    (h : ea.bind f = .ok b) : ∃ a, ea = .ok a ∧ f a = .ok b := by
  cases ea with
  | error e => simp [Except.bind] at h
  | ok a => exact ⟨a, rfl, h⟩

theorem map_ok {α β : Type} {ea : Except VErr α} {g : α → β} {b : β}
    (h : ea.map g = .ok b) : ∃ a, ea = .ok a ∧ g a = b := by
  cases ea with
  | error e => simp [Except.map] at h
  | ok a =>
    simp [Except.map] at h
    exact ⟨a, rfl, h⟩

theorem presentNonNull_false_iff (kvs : List (String × Json)) (k : String) :
    presentNonNull kvs k = false ↔
      lookupKey kvs k = none ∨ lookupKey kvs k = some .null := by
  unfold presentNonNull
  cases hv : lookupKey kvs k with
  | none => simp
  | some v => cases v <;> simp

theorem presentNonNull_true_iff (kvs : List (String × Json)) (k : String) :
    presentNonNull kvs k = true ↔
      ∃ v, lookupKey kvs k = some v ∧ v ≠ .null := by
  unfold presentNonNull
  cases hv : lookupKey kvs k with
  | none => simp
  | some v => cases v <;> simp

theorem dropLast_eq_nil_of_len_le_one {α : Type} {l : List α} (h : l.length ≤ 1) :
    l.dropLast = [] := by
  match l with
  | [] => rfl
  | [a] => rfl
  | a :: b :: t => simp at h

/-- Exact behaviour of the `validate_expiry_rules` model validator: the
identity on payloads whose non-final steps all carry an expiry, the fixed
(index-free) expiry error otherwise. -/
theorem validate_expiry_rules_spec (p : ProficiencyRoutingPayload) :
    p.validate_expiry_rules =
      if ∀ s ∈ p.Steps.dropLast, s.Expiry ≠ none then .ok p
      else .error .expiryRequiredExceptLast := by
  unfold ProficiencyRoutingPayload.validate_expiry_rules
  by_cases h1 : p.Steps.length ≤ 1
  · have hd : p.Steps.dropLast = [] := dropLast_eq_nil_of_len_le_one h1
    simp [h1, hd]
  · simp only [h1, if_false]
    by_cases h2 : ∀ s ∈ p.Steps.dropLast, s.Expiry ≠ none
    · have ha : (p.Steps.dropLast.any fun s => s.Expiry.isNone) = false := by
        simp only [List.any_eq_false]
        intro s hs
        simp [h2 s hs]
      rw [ha]
      simp only [Bool.false_eq_true, if_false]
      rw [if_pos h2]
    · have ha : (p.Steps.dropLast.any fun s => s.Expiry.isNone) = true := by
        push_neg at h2
        obtain ⟨s, hs, hn⟩ := h2
        simp only [List.any_eq_true]
        exact ⟨s, hs, by simp [hn]⟩
      rw [ha]
      simp only [if_true]
      rw [if_neg h2]

/-- Exact behaviour of the `check_operator_field_consistency` validator. -/
theorem check_operator_field_consistency_ok_iff (c c' : AttributeCondition) :
    AttributeCondition.check_operator_field_consistency c = .ok c' ↔
      c' = c ∧ OperatorFieldsConsistent c := by
  unfold AttributeCondition.check_operator_field_consistency OperatorFieldsConsistent
  cases hop : c.ComparisonOperator with
  | range =>
    cases hr : c.Range with
    | none => simp [hr]
    | some r =>
      cases hp : c.ProficiencyLevel with
      | none => simp [hr, hp, eq_comm]
      | some q => simp [hr, hp]
  | numberGreaterOrEqualTo =>
    cases hp : c.ProficiencyLevel with
    | none => simp [hp]
    | some q =>
      cases hr : c.Range with
      | none => simp [hr, hp, eq_comm]
      | some r => simp [hr, hp]

/-- Source `RangeSpec.check_min_le_max` succeeds exactly on ordered ranges, as the
identity. -/
theorem check_min_le_max_ok_iff (r r' : RangeSpec) :
    RangeSpec.check_min_le_max r = .ok r' ↔
      r' = r ∧ r.MinProficiencyLevel ≤ r.MaxProficiencyLevel := by
  unfold RangeSpec.check_min_le_max
  by_cases h : r.MinProficiencyLevel > r.MaxProficiencyLevel
  · simp only [if_pos h]
    constructor
    · intro hc
      simp at hc
    · rintro ⟨rfl, hle⟩
      exact absurd h (not_lt.mpr hle)
  · simp only [if_neg h]
    constructor
    · intro hok
      cases hok
      exact ⟨rfl, not_lt.mp h⟩
    · rintro ⟨rfl, _⟩
      rfl

theorem parseRangeSpec_sound {j : Json} {r : RangeSpec}
    (h : parseRangeSpec j = .ok r) : RangeWF r := by
  unfold parseRangeSpec at h
  split at h <;> try exact absurd h (by simp)
  split at h <;> try exact absurd h (by simp)
  split at h <;> try exact absurd h (by simp)
  obtain ⟨rfl, hle⟩ := (check_min_le_max_ok_iff _ _).mp h
  exact hle

theorem parseExpiryRule_sound {j : Json} {e : ExpiryRule}
    (h : parseExpiryRule j = .ok e) : ExpiryWF e := by
  unfold parseExpiryRule at h
  split at h
  · split at h
    · exact absurd h (by simp)
    · split at h
      · split at h
        · exact absurd h (by simp)
        · rename_i hpos
          cases h
          exact not_le.mp hpos
      · exact absurd h (by simp)
    · exact absurd h (by simp)
  · exact absurd h (by simp)

theorem parseAttributeCondition_ok {j : Json} {c : AttributeCondition}
    (h : parseAttributeCondition j = .ok c) :
    AttributeCondition.check_operator_field_consistency c = .ok c ∧ AttrWF c := by
  unfold parseAttributeCondition at h
  split at h
  · split at h
    · exact absurd h (by simp)
    · split at h
      · exact absurd h (by simp)
      · obtain ⟨prof, hprof, h⟩ := bind_ok h
        obtain ⟨op, hop, h⟩ := bind_ok h
        obtain ⟨rng, hrng, h⟩ := bind_ok h
        obtain ⟨rfl, hcons⟩ := (check_operator_field_consistency_ok_iff _ _).mp h
        refine ⟨(check_operator_field_consistency_ok_iff _ _).mpr ⟨rfl, hcons⟩,
          hcons, ?_⟩
        intro r hr
        split at hrng
        · cases hrng
          simp at hr
        · cases hrng
          simp at hr
        · rename_i rj
          obtain ⟨r0, hr0, hr0'⟩ := map_ok hrng
          change rng = some r at hr
          rw [← hr0'] at hr
          obtain rfl := Option.some.inj hr
          exact parseRangeSpec_sound hr0
      · exact absurd h (by simp)
    · exact absurd h (by simp)
  · exact absurd h (by simp)

theorem parseAttributeCondition_sound {j : Json} {c : AttributeCondition}
    (h : parseAttributeCondition j = .ok c) : AttrWF c :=
  (parseAttributeCondition_ok h).2

theorem step_parse_expression_obj (kvs : List (String × Json)) :
    Step.parse_expression (.obj kvs) =
      match lookupKey kvs "AttributeCondition" with
      | some v => (parseAttributeCondition v).map .attrCond
      | none =>
        match lookupKey kvs "NotAttributeCondition" with
        | some v => (parseAttributeCondition v).map .notAttrCond
        | none =>
          if (lookupKey kvs "AndExpression").isSome
              || (lookupKey kvs "OrExpression").isSome then
            parseCompoundExpr kvs
          else .error .invalidExpressionValue := rfl

/-- Source `Step.parse_expression` and `parse_expression_item` accept exactly the
same inputs with the same parses; only their error values differ. -/
theorem step_parse_expression_ok_iff (j : Json) (e : Expr) :
    Step.parse_expression j = .ok e ↔ parse_expression_item j = .ok e := by
  match j with
  | .null | .bool _ | .num _ | .str _ | .arr _ =>
    constructor <;> (intro h; exact absurd h (by simp [Step.parse_expression,
      parse_expression_item, parseItemF]))
  | .obj kvs =>
    rw [parse_expression_item_obj, step_parse_expression_obj]
    cases hA : lookupKey kvs "AttributeCondition" with
    | some v => rfl
    | none =>
      cases hN : lookupKey kvs "NotAttributeCondition" with
      | some v => rfl
      | none =>
        by_cases hC : ((lookupKey kvs "AndExpression").isSome
            || (lookupKey kvs "OrExpression").isSome) = true
        · simp only [hC, if_true]
        · simp only [hC, if_false]
          constructor <;> (intro h; exact absurd h (by simp))

/-- Success of an embedded validator. -/
def isOk {α : Type} : Except VErr α → Bool
  | .ok _ => true
  | .error _ => false

theorem isOk_iff {α : Type} (ea : Except VErr α) :
    isOk ea = true ↔ ∃ a, ea = .ok a := by
  cases ea <;> simp [isOk]

theorem parseExprList_length : ∀ (xs : List Json) (es : List Expr),
    parseExprList xs = .ok es → es.length = xs.length := by
  intro xs
  induction xs with
  | nil =>
    intro es h
    rw [parseExprList_nil] at h
    cases h
    rfl
  | cons x rest ih =>
    intro es h
    rw [parseExprList_cons] at h
    obtain ⟨e0, h0, h⟩ := bind_ok h
    obtain ⟨rest', h1, h2⟩ := map_ok h
    subst h2
    simp [ih rest' h1]

theorem parseExprList_isOk_iff : ∀ xs : List Json,
    isOk (parseExprList xs) = true ↔ ∀ x ∈ xs, isOk (parse_expression_item x) = true := by
  intro xs
  induction xs with
  | nil => simp [parseExprList_nil, isOk]
  | cons x rest ih =>
    rw [parseExprList_cons]
    constructor
    · intro h
      rw [isOk_iff] at h
      obtain ⟨es, h⟩ := h
      obtain ⟨e0, h0, h⟩ := bind_ok h
      obtain ⟨rest', h1, _⟩ := map_ok h
      intro y hy
      rw [List.mem_cons] at hy
      rcases hy with hy | hy
      · subst hy
        rw [isOk_iff]
        exact ⟨e0, h0⟩
      · exact (ih.mp ((isOk_iff _).mpr ⟨rest', h1⟩)) y hy
    · intro h
      obtain ⟨e0, h0⟩ := (isOk_iff _).mp (h x (by simp))
      obtain ⟨rest', h1⟩ := (isOk_iff _).mp (ih.mpr fun y hy => h y (by simp [hy]))
      rw [isOk_iff]
      exact ⟨e0 :: rest', by rw [h0, h1]; rfl⟩

theorem parse_sound_aux : ∀ n : Nat,
    (∀ j, sizeOf j ≤ n → ∀ e, parse_expression_item j = .ok e → ExprWF e)
  ∧ (∀ kvs, sizeOf kvs ≤ n → ∀ e, parseCompoundExpr kvs = .ok e → ExprWF e)
  ∧ (∀ xs, sizeOf xs ≤ n → ∀ es, parseExprList xs = .ok es → ∀ e ∈ es, ExprWF e) := by
  intro n
  induction n using Nat.strong_induction_on with
  | _ n ih =>
  refine ⟨?_, ?_, ?_⟩
  · intro j hsz e hok
    match j with
    | .null | .bool _ | .num _ | .str _ | .arr _ =>
      rw [parse_expression_item_not_obj _ (fun kvs h => Json.noConfusion h)] at hok
      exact absurd hok (by simp)
    | .obj kvs =>
      rw [parse_expression_item_obj] at hok
      have hsz' : sizeOf kvs < n := by simp at hsz; omega
      cases hA : lookupKey kvs "AttributeCondition" with
      | some v =>
        simp only [hA] at hok
        obtain ⟨c, hc, hc'⟩ := map_ok hok
        subst hc'
        exact .attrCond c (parseAttributeCondition_sound hc)
      | none =>
        simp only [hA] at hok
        cases hN : lookupKey kvs "NotAttributeCondition" with
        | some v =>
          simp only [hN] at hok
          obtain ⟨c, hc, hc'⟩ := map_ok hok
          subst hc'
          exact .notAttrCond c (parseAttributeCondition_sound hc)
        | none =>
          simp only [hN] at hok
          by_cases hC : ((lookupKey kvs "AndExpression").isSome
              || (lookupKey kvs "OrExpression").isSome) = true
          · simp only [hC, if_true] at hok
            exact (ih (sizeOf kvs) hsz').2.1 kvs le_rfl e hok
          · simp only [hC, if_false] at hok
            exact absurd hok (by simp)
  · intro kvs hsz e hok
    rw [parseCompoundExpr_def] at hok
    by_cases hk : ensure_single_key kvs = true
    · simp only [hk, Bool.not_true, Bool.false_eq_true, if_false] at hok
      obtain ⟨andE, hAnd, hok⟩ := bind_ok hok
      obtain ⟨orE, hOr, hok⟩ := bind_ok hok
      cases hok
      unfold ensure_single_key at hk
      cases hpA : presentNonNull kvs "AndExpression" <;>
        cases hpO : presentNonNull kvs "OrExpression" <;>
        rw [hpA, hpO] at hk <;> try simp at hk
      · -- And absent/null, Or present non-null
        rcases (presentNonNull_false_iff kvs "AndExpression").mp hpA with hLA | hLA <;>
          rw [hLA] at hAnd
        · rw [parseOperand_none] at hAnd
          cases hAnd
          obtain ⟨v, hLO, hvnn⟩ := (presentNonNull_true_iff kvs "OrExpression").mp hpO
          rw [hLO] at hOr
          match v, hvnn with
          | .arr xs, _ =>
            rw [parseOperand_arr] at hOr
            by_cases he : xs.isEmpty
            · rw [if_pos he] at hOr
              exact absurd hOr (by simp)
            · rw [if_neg he] at hOr
              obtain ⟨l, hl, hl'⟩ := map_ok hOr
              subst hl'
              have hxs : sizeOf xs < n := by
                have := sizeOf_lookupKey hLO
                simp at this
                omega
              refine .orE l ?_ ((ih (sizeOf xs) hxs).2.2 xs le_rfl l hl)
              intro hnil
              subst hnil
              have hlen : xs = [] :=
                List.length_eq_zero.mp (parseExprList_length xs [] hl).symm
              exact he (by simp [hlen])
          | .null, hvnn => exact absurd rfl hvnn
          | .bool b, _ =>
            rw [parseOperand_not_list _ _ _ (by simp) (by simp)] at hOr
            exact absurd hOr (by simp)
          | .num q, _ =>
            rw [parseOperand_not_list _ _ _ (by simp) (by simp)] at hOr
            exact absurd hOr (by simp)
          | .str s, _ =>
            rw [parseOperand_not_list _ _ _ (by simp) (by simp)] at hOr
            exact absurd hOr (by simp)
          | .obj kvs2, _ =>
            rw [parseOperand_not_list _ _ _ (by simp) (by simp)] at hOr
            exact absurd hOr (by simp)
        · rw [parseOperand_null] at hAnd
          cases hAnd
          obtain ⟨v, hLO, hvnn⟩ := (presentNonNull_true_iff kvs "OrExpression").mp hpO
          rw [hLO] at hOr
          match v, hvnn with
          | .arr xs, _ =>
            rw [parseOperand_arr] at hOr
            by_cases he : xs.isEmpty
            · rw [if_pos he] at hOr
              exact absurd hOr (by simp)
            · rw [if_neg he] at hOr
              obtain ⟨l, hl, hl'⟩ := map_ok hOr
              subst hl'
              have hxs : sizeOf xs < n := by
                have := sizeOf_lookupKey hLO
                simp at this
                omega
              refine .orE l ?_ ((ih (sizeOf xs) hxs).2.2 xs le_rfl l hl)
              intro hnil
              subst hnil
              have hlen : xs = [] :=
                List.length_eq_zero.mp (parseExprList_length xs [] hl).symm
              exact he (by simp [hlen])
          | .null, hvnn => exact absurd rfl hvnn
          | .bool b, _ =>
            rw [parseOperand_not_list _ _ _ (by simp) (by simp)] at hOr
            exact absurd hOr (by simp)
          | .num q, _ =>
            rw [parseOperand_not_list _ _ _ (by simp) (by simp)] at hOr
            exact absurd hOr (by simp)
          | .str s, _ =>
            rw [parseOperand_not_list _ _ _ (by simp) (by simp)] at hOr
            exact absurd hOr (by simp)
          | .obj kvs2, _ =>
            rw [parseOperand_not_list _ _ _ (by simp) (by simp)] at hOr
            exact absurd hOr (by simp)
      · -- And present non-null, Or absent/null
        obtain ⟨v, hLA, hvnn⟩ := (presentNonNull_true_iff kvs "AndExpression").mp hpA
        rw [hLA] at hAnd
        have hOrNone : orE = none := by
          rcases (presentNonNull_false_iff kvs "OrExpression").mp hpO with hLO | hLO <;>
            rw [hLO] at hOr
          · rw [parseOperand_none] at hOr
            cases hOr
            rfl
          · rw [parseOperand_null] at hOr
            cases hOr
            rfl
        subst hOrNone
        match v, hvnn with
        | .arr xs, _ =>
          rw [parseOperand_arr] at hAnd
          by_cases he : xs.isEmpty
          · rw [if_pos he] at hAnd
            exact absurd hAnd (by simp)
          · rw [if_neg he] at hAnd
            obtain ⟨l, hl, hl'⟩ := map_ok hAnd
            subst hl'
            have hxs : sizeOf xs < n := by
              have := sizeOf_lookupKey hLA
              simp at this
              omega
            refine .andE l ?_ ((ih (sizeOf xs) hxs).2.2 xs le_rfl l hl)
            intro hnil
            subst hnil
            have hlen : xs = [] :=
              List.length_eq_zero.mp (parseExprList_length xs [] hl).symm
            exact he (by simp [hlen])
        | .null, hvnn => exact absurd rfl hvnn
        | .bool b, _ =>
          rw [parseOperand_not_list _ _ _ (by simp) (by simp)] at hAnd
          exact absurd hAnd (by simp)
        | .num q, _ =>
          rw [parseOperand_not_list _ _ _ (by simp) (by simp)] at hAnd
          exact absurd hAnd (by simp)
        | .str s, _ =>
          rw [parseOperand_not_list _ _ _ (by simp) (by simp)] at hAnd
          exact absurd hAnd (by simp)
        | .obj kvs2, _ =>
          rw [parseOperand_not_list _ _ _ (by simp) (by simp)] at hAnd
          exact absurd hAnd (by simp)
    · simp only [Bool.not_eq_true] at hk
      rw [hk] at hok
      exact absurd hok (by simp)
  · intro xs hsz es hok e he
    rcases xs with _ | ⟨x, rest⟩
    · rw [parseExprList_nil] at hok
      cases hok
      simp at he
    · rw [parseExprList_cons] at hok
      obtain ⟨e0, h0, hok⟩ := bind_ok hok
      obtain ⟨rest', h1, h2⟩ := map_ok hok
      subst h2
      rw [List.mem_cons] at he
      rcases he with he | he
      · subst he
        have hx : sizeOf x < n := by simp at hsz; omega
        exact (ih (sizeOf x) hx).1 x le_rfl e h0
      · have hr : sizeOf rest < n := by simp at hsz; omega
        exact (ih (sizeOf rest) hr).2.2 rest le_rfl rest' h1 e he

/-- Soundness of `parse_expression_item`: a parsed tree satisfies the
structural invariants. -/
theorem parse_expression_item_sound {j : Json} {e : Expr}
    (h : parse_expression_item j = .ok e) : ExprWF e :=
  (parse_sound_aux (sizeOf j)).1 j le_rfl e h

theorem parseStep_sound {j : Json} {s : Step} (h : parseStep j = .ok s) : StepWF s := by
  unfold parseStep at h
  split at h
  · split at h
    · exact absurd h (by simp)
    · obtain ⟨e, he, h⟩ := bind_ok h
      obtain ⟨exp, hexp, h⟩ := bind_ok h
      cases h
      refine ⟨parse_expression_item_sound ((step_parse_expression_ok_iff _ _).mp he), ?_⟩
      intro e2 he2
      change exp = some e2 at he2
      subst he2
      split at hexp
      · exact absurd hexp (by simp)
      · exact absurd hexp (by simp)
      · obtain ⟨ex, hex, hex'⟩ := map_ok hexp
        obtain rfl := Option.some.inj hex'
        exact parseExpiryRule_sound hex
  · exact absurd h (by simp)

theorem parseSteps_ok : ∀ (xs : List Json) (ss : List Step), parseSteps xs = .ok ss →
    (∀ s ∈ ss, StepWF s) ∧ ss.length = xs.length := by
  intro xs
  induction xs with
  | nil =>
    intro ss h
    unfold parseSteps at h
    cases h
    simp
  | cons x rest ih =>
    intro ss h
    unfold parseSteps at h
    obtain ⟨s0, h0, h⟩ := bind_ok h
    obtain ⟨rest', h1, h2⟩ := map_ok h
    subst h2
    obtain ⟨hwf, hlen⟩ := ih rest' h1
    refine ⟨?_, by simp [hlen]⟩
    intro s hs
    rw [List.mem_cons] at hs
    rcases hs with hs | hs
    · subst hs
      exact parseStep_sound h0
    · exact hwf s hs

/-- Soundness of the payload parser: a parsed payload satisfies the
structural invariants, including the expiry-completeness rule. -/
theorem parseProficiencyRoutingPayload_sound {j : Json} {p : ProficiencyRoutingPayload}
    (h : parseProficiencyRoutingPayload j = .ok p) : PayloadWF p := by
  unfold parseProficiencyRoutingPayload at h
  split at h
  · split at h
    · exact absurd h (by simp)
    · split at h
      · exact absurd h (by simp)
      · obtain ⟨steps, hsteps, h⟩ := bind_ok h
        rw [validate_expiry_rules_spec] at h
        split at h
        · cases h
          rename_i xs hlk hempty hdrop
          obtain ⟨hwf, hlen⟩ := parseSteps_ok xs steps hsteps
          refine ⟨?_, hwf, hdrop⟩
          intro hnil
          change steps = [] at hnil
          subst hnil
          simp only [List.length_nil] at hlen
          have hx0 : xs = [] := List.length_eq_zero.mp (by omega)
          rw [List.isEmpty_iff] at hempty
          exact hempty hx0
        · exact absurd h (by simp)
    · exact absurd h (by simp)
  · exact absurd h (by simp)

/-! ## Round-trip: a well-formed tree re-parses from its canonical form -/

theorem encodeRangeSpec_roundtrip {r : RangeSpec} (h : RangeWF r) :
    parseRangeSpec (encodeRangeSpec r) = .ok r := by
  obtain ⟨lo, hi⟩ := r
  unfold encodeRangeSpec parseRangeSpec RangeSpec.check_min_le_max
  simp [lookupKey]
  exact h

theorem encodeExpiryRule_roundtrip {e : ExpiryRule} (h : ExpiryWF e) :
    parseExpiryRule (encodeExpiryRule e) = .ok e := by
  obtain ⟨n⟩ := e
  have hpos : (0 : Int) < n := h
  unfold encodeExpiryRule parseExpiryRule
  simp [lookupKey, Rat.den_intCast, Rat.num_intCast, not_le.mpr hpos]

theorem encodeAttributeCondition_roundtrip {c : AttributeCondition} (h : AttrWF c) :
    parseAttributeCondition (encodeAttributeCondition c) = .ok c := by
  obtain ⟨name, value, prof, op, rng⟩ := c
  obtain ⟨⟨hra, hnu⟩, hrwf⟩ := h
  cases op with
  | range =>
    obtain ⟨hsome, hpn⟩ := hra rfl
    change rng.isSome = true at hsome
    change prof = none at hpn
    subst hpn
    obtain ⟨r0, hr0⟩ := Option.isSome_iff_exists.mp hsome
    subst hr0
    have hRT : parseRangeSpec (encodeRangeSpec r0) = .ok r0 :=
      encodeRangeSpec_roundtrip (hrwf r0 rfl)
    unfold encodeAttributeCondition encodeComparisonOp at *
    unfold parseAttributeCondition
    unfold encodeRangeSpec at hRT ⊢
    simp [lookupKey, hRT, AttributeCondition.check_operator_field_consistency,
      Except.bind, Except.map]
  | numberGreaterOrEqualTo =>
    obtain ⟨hsome, hrn⟩ := hnu rfl
    change prof.isSome = true at hsome
    change rng = none at hrn
    subst hrn
    obtain ⟨q0, hq0⟩ := Option.isSome_iff_exists.mp hsome
    subst hq0
    unfold encodeAttributeCondition encodeComparisonOp
    unfold parseAttributeCondition
    simp [lookupKey, AttributeCondition.check_operator_field_consistency,
      Except.bind]

theorem encodeExprList_nil_iff (xs : List Expr) :
    encodeExprList xs = [] ↔ xs = [] := by
  cases xs <;> simp [encodeExprList]

theorem parseExprList_encode (xs : List Expr)
    (hall : ∀ e ∈ xs, parse_expression_item (encodeExpr e) = .ok e) :
    parseExprList (encodeExprList xs) = .ok xs := by
  induction xs with
  | nil =>
    rw [show encodeExprList [] = [] from by simp [encodeExprList]]
    exact parseExprList_nil
  | cons e rest ih =>
    rw [show encodeExprList (e :: rest) = encodeExpr e :: encodeExprList rest from by
      simp [encodeExprList]]
    rw [parseExprList_cons, hall e (by simp),
      ih fun x hx => hall x (by simp [hx])]
    rfl

theorem encodeExpr_roundtrip : ∀ {e : Expr}, ExprWF e →
    parse_expression_item (encodeExpr e) = .ok e := by
  intro e h
  induction h with
  | attrCond c hc =>
    rw [show encodeExpr (.attrCond c) = .obj [("AttributeCondition", encodeAttributeCondition c)]
      from by simp [encodeExpr]]
    rw [parse_expression_item_obj]
    simp [lookupKey, encodeAttributeCondition_roundtrip hc, Except.map]
  | notAttrCond c hc =>
    rw [show encodeExpr (.notAttrCond c)
        = .obj [("NotAttributeCondition", encodeAttributeCondition c)]
      from by simp [encodeExpr]]
    rw [parse_expression_item_obj]
    simp [lookupKey, encodeAttributeCondition_roundtrip hc, Except.map]
  | andE xs hne hall ih =>
    rw [show encodeExpr (.compound (some xs) none)
        = .obj [("AndExpression", .arr (encodeExprList xs)), ("OrExpression", .null)]
      from by simp [encodeExpr, encodeOperand]]
    rw [parse_expression_item_obj]
    have hlk1 : lookupKey [("AndExpression", Json.arr (encodeExprList xs)),
        ("OrExpression", Json.null)] "AttributeCondition" = none := by simp [lookupKey]
    have hlk2 : lookupKey [("AndExpression", Json.arr (encodeExprList xs)),
        ("OrExpression", Json.null)] "NotAttributeCondition" = none := by simp [lookupKey]
    have hlkA : lookupKey [("AndExpression", Json.arr (encodeExprList xs)),
        ("OrExpression", Json.null)] "AndExpression" = some (.arr (encodeExprList xs)) := by
      simp [lookupKey]
    have hlkO : lookupKey [("AndExpression", Json.arr (encodeExprList xs)),
        ("OrExpression", Json.null)] "OrExpression" = some .null := by
      simp [lookupKey]
    rw [hlk1, hlk2]
    rw [show ((lookupKey [("AndExpression", Json.arr (encodeExprList xs)),
        ("OrExpression", Json.null)] "AndExpression").isSome
        || (lookupKey [("AndExpression", Json.arr (encodeExprList xs)),
        ("OrExpression", Json.null)] "OrExpression").isSome) = true from by
      rw [hlkA]; rfl]
    rw [if_pos rfl, parseCompoundExpr_def]
    have hens : ensure_single_key [("AndExpression", Json.arr (encodeExprList xs)),
        ("OrExpression", Json.null)] = true := by
      unfold ensure_single_key presentNonNull
      rw [hlkA, hlkO]
      rfl
    rw [hens]
    simp only [Bool.not_true, Bool.false_eq_true, if_false]
    rw [hlkA, hlkO, parseOperand_arr, parseOperand_null]
    rw [if_neg (by
      rw [List.isEmpty_iff]
      intro hcon
      exact hne ((encodeExprList_nil_iff xs).mp hcon))]
    rw [parseExprList_encode xs ih]
    rfl
  | orE xs hne hall ih =>
    rw [show encodeExpr (.compound none (some xs))
        = .obj [("AndExpression", .null), ("OrExpression", .arr (encodeExprList xs))]
      from by simp [encodeExpr, encodeOperand]]
    rw [parse_expression_item_obj]
    have hlk1 : lookupKey [("AndExpression", Json.null),
        ("OrExpression", Json.arr (encodeExprList xs))] "AttributeCondition" = none := by
      simp [lookupKey]
    have hlk2 : lookupKey [("AndExpression", Json.null),
        ("OrExpression", Json.arr (encodeExprList xs))] "NotAttributeCondition" = none := by
      simp [lookupKey]
    have hlkA : lookupKey [("AndExpression", Json.null),
        ("OrExpression", Json.arr (encodeExprList xs))] "AndExpression" = some .null := by
      simp [lookupKey]
    have hlkO : lookupKey [("AndExpression", Json.null),
        ("OrExpression", Json.arr (encodeExprList xs))] "OrExpression"
        = some (.arr (encodeExprList xs)) := by
      simp [lookupKey]
    rw [hlk1, hlk2]
    rw [show ((lookupKey [("AndExpression", Json.null),
        ("OrExpression", Json.arr (encodeExprList xs))] "AndExpression").isSome
        || (lookupKey [("AndExpression", Json.null),
        ("OrExpression", Json.arr (encodeExprList xs))] "OrExpression").isSome) = true from by
      rw [hlkA]; rfl]
    rw [if_pos rfl, parseCompoundExpr_def]
    have hens : ensure_single_key [("AndExpression", Json.null),
        ("OrExpression", Json.arr (encodeExprList xs))] = true := by
      unfold ensure_single_key presentNonNull
      rw [hlkA, hlkO]
      rfl
    rw [hens]
    simp only [Bool.not_true, Bool.false_eq_true, if_false]
    rw [hlkA, hlkO, parseOperand_arr, parseOperand_null]
    rw [if_neg (by
      rw [List.isEmpty_iff]
      intro hcon
      exact hne ((encodeExprList_nil_iff xs).mp hcon))]
    rw [parseExprList_encode xs ih]
    rfl

theorem encodeStep_roundtrip {s : Step} (h : StepWF s) :
    parseStep (encodeStep s) = .ok s := by
  obtain ⟨e, exp⟩ := s
  obtain ⟨he, hexp⟩ := h
  have hE : Step.parse_expression (encodeExpr e) = .ok e :=
    (step_parse_expression_ok_iff _ _).mpr (encodeExpr_roundtrip he)
  cases exp with
  | none =>
    unfold encodeStep parseStep
    simp [lookupKey, hE, Except.bind]
  | some ex =>
    have hX : parseExpiryRule (encodeExpiryRule ex) = .ok ex :=
      encodeExpiryRule_roundtrip (hexp ex rfl)
    unfold encodeStep parseStep
    unfold encodeExpiryRule at hX ⊢
    simp [lookupKey, hE, hX, Except.bind, Except.map]

theorem parseSteps_encode (ss : List Step)
    (hall : ∀ s ∈ ss, parseStep (encodeStep s) = .ok s) :
    parseSteps (ss.map encodeStep) = .ok ss := by
  induction ss with
  | nil => rfl
  | cons s rest ih =>
    rw [List.map_cons]
    unfold parseSteps
    rw [hall s (by simp), ih fun x hx => hall x (by simp [hx])]
    rfl

/-- Round-trip for well-formed payload values. -/
theorem encodeProficiencyRoutingPayload_roundtrip {p : ProficiencyRoutingPayload}
    (h : PayloadWF p) :
    parseProficiencyRoutingPayload (encodeProficiencyRoutingPayload p) = .ok p := by
  obtain ⟨steps⟩ := p
  obtain ⟨hne, hwf, hdrop⟩ := h
  have hS : parseSteps (steps.map encodeStep) = .ok steps :=
    parseSteps_encode steps fun s hs => encodeStep_roundtrip (hwf s hs)
  simp only [encodeProficiencyRoutingPayload, parseProficiencyRoutingPayload]
  rw [show lookupKey [("Steps", Json.arr (steps.map encodeStep))] "Steps"
      = some (.arr (steps.map encodeStep)) from by simp [lookupKey]]
  have hne' : (steps.map encodeStep).isEmpty = false := by
    cases steps with
    | nil => exact absurd rfl hne
    | cons a t => simp
  show (if (steps.map encodeStep).isEmpty = true then Except.error VErr.stepsEmpty
    else (parseSteps (steps.map encodeStep)).bind fun st =>
      ProficiencyRoutingPayload.validate_expiry_rules ⟨st⟩)
    = Except.ok ⟨steps⟩
  rw [hne']
  simp only [Bool.false_eq_true, if_false]
  rw [hS]
  simp only [Except.bind]
  rw [validate_expiry_rules_spec]
  rw [if_pos hdrop]

/-! ## Concrete fixtures used by witnesses and counterexamples -/

/-- A valid `AttributeCondition` document. -/
def sampleAttrJson : Json := .obj [("Name", .str "Language"), ("Value", .str "English"),
  ("ProficiencyLevel", .num 1), ("ComparisonOperator", .str "NumberGreaterOrEqualTo")]

/-- The tree `sampleAttrJson` parses to. -/
def sampleAttrCond : AttributeCondition :=
  ⟨"Language", "English", some 1, .numberGreaterOrEqualTo, none⟩

/-- A valid two-step payload: first step with expiry, last step without. -/
def samplePayloadJson : Json := .obj [("Steps", .arr [
  .obj [("Expression", .obj [("AttributeCondition", sampleAttrJson)]),
        ("Expiry", .obj [("DurationInSeconds", .num 30)])],
  .obj [("Expression", .obj [("AttributeCondition", sampleAttrJson)])]])]

/-- The tree `samplePayloadJson` parses to. -/
def samplePayload : ProficiencyRoutingPayload :=
  ⟨[⟨.attrCond sampleAttrCond, some ⟨30⟩⟩, ⟨.attrCond sampleAttrCond, none⟩]⟩

/-- Two-step payload whose step 0 (the only non-last step) lacks `Expiry`. -/
def payloadMissingExpiryAt0 : Json := .obj [("Steps", .arr [
  .obj [("Expression", .obj [("AttributeCondition", sampleAttrJson)])],
  .obj [("Expression", .obj [("AttributeCondition", sampleAttrJson)])]])]

/-- Three-step payload whose step 0 has `Expiry` and step 1 lacks it: the
offending 0-based index is 1. -/
def payloadMissingExpiryAt1 : Json := .obj [("Steps", .arr [
  .obj [("Expression", .obj [("AttributeCondition", sampleAttrJson)]),
        ("Expiry", .obj [("DurationInSeconds", .num 30)])],
  .obj [("Expression", .obj [("AttributeCondition", sampleAttrJson)])],
  .obj [("Expression", .obj [("AttributeCondition", sampleAttrJson)])]])]

/-- The contact-flow event of the repository test `test_minimal_valid_event`:
all fields the spec lists as required are present, `AwsRegion` is omitted. -/
def minimalContactFlowEvent : Json := .obj [("Details", .obj [
  ("ContactData", .obj [
    ("Attributes", .obj []),
    ("Channel", .str "CHAT"),
    ("ContactId", .str "minimal-contact-id"),
    ("InitialContactId", .str "minimal-initial-contact-id"),
    ("InitiationMethod", .str "API"),
    ("InstanceARN", .str "arn:aws:connect:us-east-1:123456789012:instance/minimal"),
    ("PreviousContactId", .str "minimal-previous-contact-id"),
    ("MediaStreams", .obj [("Customer", .obj [("Audio", .obj [])])])]),
  ("Parameters", .obj [])])]

/-! ## Claims -/

/-- C1: for every routing payload, parsing succeeds only if every step
before the last (`Steps.dropLast`, i.e. positions `0..N-2`) carries a
non-null `Expiry`; the last step — in particular the single step of a
one-step payload — may always omit it.  Stated as the exact success
condition of the sequence-level validator together with its propagation
through the full parser. -/
theorem c1_expiry_sequence_rule :
    (∀ p : ProficiencyRoutingPayload,
      isOk p.validate_expiry_rules = true ↔ ∀ s ∈ p.Steps.dropLast, s.Expiry ≠ none)
  ∧ (∀ (j : Json) (p : ProficiencyRoutingPayload),
      parseProficiencyRoutingPayload j = .ok p →
        ∀ s ∈ p.Steps.dropLast, s.Expiry ≠ none) := by
  constructor
  · intro p
    rw [validate_expiry_rules_spec]
    by_cases h : ∀ s ∈ p.Steps.dropLast, s.Expiry ≠ none
    · rw [if_pos h]
      simpa [isOk] using h
    · rw [if_neg h]
      simp [isOk, h]
  · intro j p h
    exact (parseProficiencyRoutingPayload_sound h).2.2

/-- C1 witness: the non-last step of the parsed two-step sample payload
carries an expiry. -/
theorem c1_expiry_sequence_rule_witness :
    (Step.mk (.attrCond sampleAttrCond) (some ⟨30⟩)).Expiry ≠ none :=
  c1_expiry_sequence_rule.2 samplePayloadJson samplePayload rfl
    (Step.mk (.attrCond sampleAttrCond) (some ⟨30⟩)) (by simp [samplePayload])

/-- C2: `AttributeCondition` validation succeeds exactly when the optional
fields match the declared operator (`Range` operator: `Range` present and
`ProficiencyLevel` absent; `NumberGreaterOrEqualTo`: `ProficiencyLevel`
present and `Range` absent), and every parsed condition satisfies the
coupling — so every input violating either direction fails. -/
theorem c2_operator_field_coupling :
    (∀ c c' : AttributeCondition,
      AttributeCondition.check_operator_field_consistency c = .ok c' ↔
        c' = c ∧ OperatorFieldsConsistent c)
  ∧ (∀ (j : Json) (c : AttributeCondition),
      parseAttributeCondition j = .ok c → OperatorFieldsConsistent c) :=
  ⟨check_operator_field_consistency_ok_iff,
   fun _ _ h => (parseAttributeCondition_sound h).1⟩

/-- C2 witness: the sample condition parses and satisfies the coupling. -/
theorem c2_operator_field_coupling_witness :
    OperatorFieldsConsistent sampleAttrCond :=
  c2_operator_field_coupling.2 sampleAttrJson sampleAttrCond rfl

/-- C3 counterexample: an object carrying two discriminator keys
(`AttributeCondition` and `AndExpression`) is not rejected — it parses
successfully, silently resolved to the `AttributeCondition` variant. -/
theorem c3_counterexample :
    parse_expression_item (.obj [("AttributeCondition", sampleAttrJson),
      ("AndExpression", .arr [.obj [("AttributeCondition", sampleAttrJson)]])])
      = .ok (.attrCond sampleAttrCond) := rfl

/-- C3 (amended): full discriminator-dispatch behaviour.  An Expression
object with none of the four discriminator keys fails with the
unknown-discriminator error.  An object with more than one discriminator
key is not uniformly rejected: a present `AttributeCondition` key always
resolves the object to that variant, ignoring every other key; failing
that, a present `NotAttributeCondition` key resolves it to the negated
variant, again ignoring the compound keys; only when both leaf keys are
absent and both `AndExpression` and `OrExpression` are bound to non-null
values is the multi-key object rejected, by the exactly-one check of
`ensure_single_key`. -/
theorem c3_discriminator_dispatch :
    (∀ kvs : List (String × Json),
      lookupKey kvs "AttributeCondition" = none →
      lookupKey kvs "NotAttributeCondition" = none →
      lookupKey kvs "AndExpression" = none →
      lookupKey kvs "OrExpression" = none →
      parse_expression_item (.obj kvs) = .error .unknownExpressionType)
  ∧ (∀ (kvs : List (String × Json)) (v : Json),
      lookupKey kvs "AttributeCondition" = some v →
      parse_expression_item (.obj kvs) = (parseAttributeCondition v).map .attrCond)
  ∧ (∀ (kvs : List (String × Json)) (v : Json),
      lookupKey kvs "AttributeCondition" = none →
      lookupKey kvs "NotAttributeCondition" = some v →
      parse_expression_item (.obj kvs) = (parseAttributeCondition v).map .notAttrCond)
  ∧ (∀ kvs : List (String × Json),
      lookupKey kvs "AttributeCondition" = none →
      lookupKey kvs "NotAttributeCondition" = none →
      presentNonNull kvs "AndExpression" = true →
      presentNonNull kvs "OrExpression" = true →
      parse_expression_item (.obj kvs) = .error .compoundExactlyOne) := by
  refine ⟨?_, ?_, ?_, ?_⟩
  · intro kvs h1 h2 h3 h4
    rw [parse_expression_item_obj, h1, h2, h3, h4]
    rfl
  · intro kvs v h1
    rw [parse_expression_item_obj, h1]
  · intro kvs v h1 h2
    rw [parse_expression_item_obj, h1]
    show (match lookupKey kvs "NotAttributeCondition" with
      | some v => (parseAttributeCondition v).map Expr.notAttrCond
      | none =>
        if (lookupKey kvs "AndExpression").isSome
            || (lookupKey kvs "OrExpression").isSome then
          parseCompoundExpr kvs
        else Except.error VErr.unknownExpressionType)
      = (parseAttributeCondition v).map Expr.notAttrCond
    rw [h2]
  · intro kvs h1 h2 hA hO
    obtain ⟨va, hva, -⟩ := (presentNonNull_true_iff kvs "AndExpression").mp hA
    rw [parse_expression_item_obj, h1]
    show (match lookupKey kvs "NotAttributeCondition" with
      | some v => (parseAttributeCondition v).map Expr.notAttrCond
      | none =>
        if (lookupKey kvs "AndExpression").isSome
            || (lookupKey kvs "OrExpression").isSome then
          parseCompoundExpr kvs
        else Except.error VErr.unknownExpressionType)
      = .error .compoundExactlyOne
    rw [h2]
    rw [show ((lookupKey kvs "AndExpression").isSome
        || (lookupKey kvs "OrExpression").isSome) = true from by rw [hva]; rfl]
    rw [if_pos rfl, parseCompoundExpr_def]
    have hens : ensure_single_key kvs = false := by
      unfold ensure_single_key
      rw [hA, hO]
      rfl
    rw [hens]
    rfl

/-- C3 witness: precedence resolution applied at a concrete two-key object
(a present `AttributeCondition` key wins over a compound key). -/
theorem c3_discriminator_dispatch_witness :
    parse_expression_item (.obj [("AttributeCondition", sampleAttrJson),
      ("OrExpression", .null)]) = .ok (.attrCond sampleAttrCond) :=
  (c3_discriminator_dispatch.2.1 [("AttributeCondition", sampleAttrJson),
    ("OrExpression", .null)] sampleAttrJson rfl).trans rfl

/-- C5: `RangeSpec` validation succeeds if and only if `min ≤ max` (the
validator is the identity then); `min > max` fails with the range error;
and every parsed range is ordered — equal bounds are accepted since the
condition is non-strict. -/
theorem c5_range_min_le_max :
    (∀ r r' : RangeSpec, RangeSpec.check_min_le_max r = .ok r' ↔
      r' = r ∧ r.MinProficiencyLevel ≤ r.MaxProficiencyLevel)
  ∧ (∀ r : RangeSpec, r.MaxProficiencyLevel < r.MinProficiencyLevel →
      RangeSpec.check_min_le_max r = .error .minGtMax)
  ∧ (∀ (j : Json) (r : RangeSpec), parseRangeSpec j = .ok r →
      r.MinProficiencyLevel ≤ r.MaxProficiencyLevel) := by
  refine ⟨check_min_le_max_ok_iff, ?_, fun _ _ h => parseRangeSpec_sound h⟩
  intro r h
  unfold RangeSpec.check_min_le_max
  rw [if_pos h]

/-- C5 witness: a degenerate single-point range (`min = max = 2`) parses
successfully and is ordered. -/
theorem c5_range_min_le_max_witness :
    (RangeSpec.mk 2 2).MinProficiencyLevel ≤ (RangeSpec.mk 2 2).MaxProficiencyLevel :=
  c5_range_min_le_max.2.2
    (.obj [("MinProficiencyLevel", .num 2), ("MaxProficiencyLevel", .num 2)])
    (RangeSpec.mk 2 2) rfl

/-- C6 counterexample: a payload offending at step index 0 and a payload
offending at step index 1 produce the same error value — the error raised
by `validate_expiry_rules` is the fixed message "Expiry is required for
all steps except the last one" and cannot name the offending index. -/
theorem c6_counterexample :
    parseProficiencyRoutingPayload payloadMissingExpiryAt0
        = .error .expiryRequiredExceptLast
    ∧ parseProficiencyRoutingPayload payloadMissingExpiryAt1
        = .error .expiryRequiredExceptLast :=
  ⟨rfl, rfl⟩

/-- C6 (amended): whenever some step before the last lacks `Expiry`,
validation fails with the fixed expiry-required error (which does not
carry the offending step index). -/
theorem c6_expiry_error_fixed :
    ∀ (p : ProficiencyRoutingPayload) (s : Step), s ∈ p.Steps.dropLast →
      s.Expiry = none →
      p.validate_expiry_rules = .error .expiryRequiredExceptLast := by
  intro p s hs hn
  rw [validate_expiry_rules_spec]
  rw [if_neg (by
    intro hall
    exact hall s hs hn)]

/-- C6 witness: the two-step payload lacking expiry at step 0 fails with
the fixed error. -/
theorem c6_expiry_error_fixed_witness :
    (ProficiencyRoutingPayload.mk [⟨.attrCond sampleAttrCond, none⟩,
      ⟨.attrCond sampleAttrCond, none⟩]).validate_expiry_rules
      = .error .expiryRequiredExceptLast :=
  c6_expiry_error_fixed _ ⟨.attrCond sampleAttrCond, none⟩ (by simp) rfl

/-- C7: the code declares `AwsRegion` a required field, so the minimal
event of the repository (which omits `AwsRegion` but supplies every field
the spec lists as required) is rejected with a missing-field error — the
code contradicts the spec and its own `test_minimal_valid_event`. -/
theorem c7_aws_region_required_in_code :
    parseConnectContactFlowEvent minimalContactFlowEvent
      = .error (.missingField "AwsRegion") := rfl

/-- C9 counterexample: the two expression parsers also differ in their
rejection for an *object* input with no recognized discriminator key, not
only for non-object input. -/
theorem c9_counterexample :
    Step.parse_expression (.obj []) = .error .invalidExpressionValue
    ∧ parse_expression_item (.obj []) = .error .unknownExpressionType
    ∧ VErr.invalidExpressionValue ≠ VErr.unknownExpressionType :=
  ⟨rfl, rfl, by decide⟩

/-- C9 (amended): `Step.parse_expression` and `parse_expression_item`
accept exactly the same inputs and produce structurally equal nodes on
every accepted input; their rejection values differ both for non-object
input and for objects with no recognized discriminator key. -/
theorem c9_parsers_equivalent : ∀ (j : Json) (e : Expr),
    Step.parse_expression j = .ok e ↔ parse_expression_item j = .ok e :=
  step_parse_expression_ok_iff

theorem isOk_bind {α β : Type} (ea : Except VErr α) (f : α → Except VErr β) :
    isOk (ea.bind f) = true ↔ ∃ a, ea = .ok a ∧ isOk (f a) = true := by
  cases ea <;> simp [Except.bind, isOk]

/-- C4: `CompoundExpr` validation succeeds exactly when precisely one of
`AndExpression` / `OrExpression` is present with a non-null value, that
value is a non-empty JSON array, and every element parses as an
Expression.  Both-present, both-absent and empty-array inputs all fail,
since they satisfy neither disjunct. -/
theorem c4_compound_exactly_one : ∀ kvs : List (String × Json),
    isOk (parseCompoundExpr kvs) = true ↔
      ((presentNonNull kvs "AndExpression" = true
        ∧ presentNonNull kvs "OrExpression" = false
        ∧ ∃ xs, lookupKey kvs "AndExpression" = some (.arr xs) ∧ xs ≠ []
            ∧ ∀ x ∈ xs, isOk (parse_expression_item x) = true)
      ∨ (presentNonNull kvs "AndExpression" = false
        ∧ presentNonNull kvs "OrExpression" = true
        ∧ ∃ xs, lookupKey kvs "OrExpression" = some (.arr xs) ∧ xs ≠ []
            ∧ ∀ x ∈ xs, isOk (parse_expression_item x) = true)) := by
  intro kvs
  rw [parseCompoundExpr_def]
  by_cases hpA : presentNonNull kvs "AndExpression" = true
  · by_cases hpO : presentNonNull kvs "OrExpression" = true
    · -- both present non-null: rejected
      have he : ensure_single_key kvs = false := by
        unfold ensure_single_key
        rw [hpA, hpO]
        rfl
      rw [he]
      constructor
      · intro h
        simp [isOk] at h
      · rintro (⟨-, h2, -⟩ | ⟨h1, -, -⟩)
        · rw [hpO] at h2
          exact absurd h2 (by simp)
        · rw [hpA] at h1
          exact absurd h1 (by simp)
    · -- And present, Or absent
      have hpO' : presentNonNull kvs "OrExpression" = false := by
        simpa using hpO
      have he : ensure_single_key kvs = true := by
        unfold ensure_single_key
        rw [hpA, hpO']
        rfl
      rw [he]
      simp only [Bool.not_true, Bool.false_eq_true, if_false]
      have hOrOk : parseOperand (lookupKey kvs "OrExpression") .orNotList .orEmpty
          = .ok none := by
        rcases (presentNonNull_false_iff kvs "OrExpression").mp hpO' with hLO | hLO <;>
          rw [hLO]
        · exact parseOperand_none _ _
        · exact parseOperand_null _ _
      simp only [hOrOk]
      obtain ⟨v, hv, hvn⟩ := (presentNonNull_true_iff kvs "AndExpression").mp hpA
      rw [hv]
      match v, hvn with
      | .null, hvn => exact absurd rfl hvn
      | .arr xs, _ =>
        rw [parseOperand_arr]
        by_cases hemp : xs.isEmpty = true
        · rw [if_pos hemp]
          obtain rfl := List.isEmpty_iff.mp hemp
          constructor
          · intro h
            exact absurd h (by simp [isOk, Except.bind])
          · rintro (⟨-, -, xs', hx', hne', -⟩ | ⟨h1, -, -⟩)
            · injection Option.some.inj hx' with h'
              exact absurd h'.symm hne'
            · rw [hpA] at h1
              exact absurd h1 (by simp)
        · rw [if_neg hemp]
          have hxsne : xs ≠ [] := by
            intro hnil
            exact hemp (by simp [hnil])
          constructor
          · intro h
            obtain ⟨a, ha, -⟩ := (isOk_bind _ _).mp h
            obtain ⟨l, hl, -⟩ := map_ok ha
            left
            exact ⟨hpA, hpO', xs, rfl, hxsne,
              (parseExprList_isOk_iff xs).mp (by rw [hl]; rfl)⟩
          · rintro (⟨-, -, xs', hx', -, hall'⟩ | ⟨h1, -, -⟩)
            · injection Option.some.inj hx' with h'
              subst h'
              obtain ⟨l, hl⟩ := (isOk_iff _).mp ((parseExprList_isOk_iff xs).mpr hall')
              rw [hl]
              simp [Except.map, Except.bind, isOk]
            · rw [hpA] at h1
              exact absurd h1 (by simp)
      | .bool b, _ =>
        rw [parseOperand_not_list _ _ _ (by simp) (by simp)]
        constructor
        · intro h
          exact absurd h (by simp [isOk, Except.bind])
        · rintro (⟨-, -, xs', hx', -, -⟩ | ⟨h1, -, -⟩)
          · exact absurd (Option.some.inj hx') (by simp)
          · rw [hpA] at h1
            exact absurd h1 (by simp)
      | .num q, _ =>
        rw [parseOperand_not_list _ _ _ (by simp) (by simp)]
        constructor
        · intro h
          exact absurd h (by simp [isOk, Except.bind])
        · rintro (⟨-, -, xs', hx', -, -⟩ | ⟨h1, -, -⟩)
          · exact absurd (Option.some.inj hx') (by simp)
          · rw [hpA] at h1
            exact absurd h1 (by simp)
      | .str st, _ =>
        rw [parseOperand_not_list _ _ _ (by simp) (by simp)]
        constructor
        · intro h
          exact absurd h (by simp [isOk, Except.bind])
        · rintro (⟨-, -, xs', hx', -, -⟩ | ⟨h1, -, -⟩)
          · exact absurd (Option.some.inj hx') (by simp)
          · rw [hpA] at h1
            exact absurd h1 (by simp)
      | .obj kvs2, _ =>
        rw [parseOperand_not_list _ _ _ (by simp) (by simp)]
        constructor
        · intro h
          exact absurd h (by simp [isOk, Except.bind])
        · rintro (⟨-, -, xs', hx', -, -⟩ | ⟨h1, -, -⟩)
          · exact absurd (Option.some.inj hx') (by simp)
          · rw [hpA] at h1
            exact absurd h1 (by simp)
  · have hpA' : presentNonNull kvs "AndExpression" = false := by
      simpa using hpA
    by_cases hpO : presentNonNull kvs "OrExpression" = true
    · -- Or present, And absent
      have he : ensure_single_key kvs = true := by
        unfold ensure_single_key
        rw [hpA', hpO]
        rfl
      rw [he]
      simp only [Bool.not_true, Bool.false_eq_true, if_false]
      have hAndOk : parseOperand (lookupKey kvs "AndExpression") .andNotList .andEmpty
          = .ok none := by
        rcases (presentNonNull_false_iff kvs "AndExpression").mp hpA' with hLA | hLA <;>
          rw [hLA]
        · exact parseOperand_none _ _
        · exact parseOperand_null _ _
      rw [hAndOk]
      simp only [Except.bind]
      obtain ⟨v, hv, hvn⟩ := (presentNonNull_true_iff kvs "OrExpression").mp hpO
      rw [hv]
      match v, hvn with
      | .null, hvn => exact absurd rfl hvn
      | .arr xs, _ =>
        rw [parseOperand_arr]
        by_cases hemp : xs.isEmpty = true
        · rw [if_pos hemp]
          obtain rfl := List.isEmpty_iff.mp hemp
          constructor
          · intro h
            exact absurd h (by simp [isOk, Except.bind])
          · rintro (⟨h1, -, -⟩ | ⟨-, -, xs', hx', hne', -⟩)
            · rw [hpA'] at h1
              exact absurd h1 (by simp)
            · injection Option.some.inj hx' with h'
              exact absurd h'.symm hne'
        · rw [if_neg hemp]
          have hxsne : xs ≠ [] := by
            intro hnil
            exact hemp (by simp [hnil])
          constructor
          · intro h
            obtain ⟨a, ha, -⟩ := (isOk_bind _ _).mp h
            obtain ⟨l, hl, -⟩ := map_ok ha
            right
            exact ⟨hpA', hpO, xs, rfl, hxsne,
              (parseExprList_isOk_iff xs).mp (by rw [hl]; rfl)⟩
          · rintro (⟨h1, -, -⟩ | ⟨-, -, xs', hx', -, hall'⟩)
            · rw [hpA'] at h1
              exact absurd h1 (by simp)
            · injection Option.some.inj hx' with h'
              subst h'
              obtain ⟨l, hl⟩ := (isOk_iff _).mp ((parseExprList_isOk_iff xs).mpr hall')
              rw [hl]
              simp [Except.map, Except.bind, isOk]
      | .bool b, _ =>
        rw [parseOperand_not_list _ _ _ (by simp) (by simp)]
        constructor
        · intro h
          exact absurd h (by simp [isOk, Except.bind])
        · rintro (⟨h1, -, -⟩ | ⟨-, -, xs', hx', -, -⟩)
          · rw [hpA'] at h1
            exact absurd h1 (by simp)
          · exact absurd (Option.some.inj hx') (by simp)
      | .num q, _ =>
        rw [parseOperand_not_list _ _ _ (by simp) (by simp)]
        constructor
        · intro h
          exact absurd h (by simp [isOk, Except.bind])
        · rintro (⟨h1, -, -⟩ | ⟨-, -, xs', hx', -, -⟩)
          · rw [hpA'] at h1
            exact absurd h1 (by simp)
          · exact absurd (Option.some.inj hx') (by simp)
      | .str st, _ =>
        rw [parseOperand_not_list _ _ _ (by simp) (by simp)]
        constructor
        · intro h
          exact absurd h (by simp [isOk, Except.bind])
        · rintro (⟨h1, -, -⟩ | ⟨-, -, xs', hx', -, -⟩)
          · rw [hpA'] at h1
            exact absurd h1 (by simp)
          · exact absurd (Option.some.inj hx') (by simp)
      | .obj kvs2, _ =>
        rw [parseOperand_not_list _ _ _ (by simp) (by simp)]
        constructor
        · intro h
          exact absurd h (by simp [isOk, Except.bind])
        · rintro (⟨h1, -, -⟩ | ⟨-, -, xs', hx', -, -⟩)
          · rw [hpA'] at h1
            exact absurd h1 (by simp)
          · exact absurd (Option.some.inj hx') (by simp)
    · -- both absent: rejected
      have hpO' : presentNonNull kvs "OrExpression" = false := by
        simpa using hpO
      have he : ensure_single_key kvs = false := by
        unfold ensure_single_key
        rw [hpA', hpO']
        rfl
      rw [he]
      constructor
      · intro h
        simp [isOk] at h
      · rintro (⟨h1, -, -⟩ | ⟨-, h2, -⟩)
        · rw [hpA'] at h1
          exact absurd h1 (by simp)
        · rw [hpO'] at h2
          exact absurd h2 (by simp)

/-- C8: re-parsing the canonical encoding of any successfully parsed
payload succeeds and returns the same tree. -/
theorem c8_parse_encode_roundtrip :
    ∀ (j : Json) (p : ProficiencyRoutingPayload),
      parseProficiencyRoutingPayload j = .ok p →
      parseProficiencyRoutingPayload (encodeProficiencyRoutingPayload p) = .ok p :=
  fun _ _ h =>
    encodeProficiencyRoutingPayload_roundtrip (parseProficiencyRoutingPayload_sound h)

/-- C8 witness: round trip of the concrete two-step sample payload. -/
theorem c8_parse_encode_roundtrip_witness :
    parseProficiencyRoutingPayload (encodeProficiencyRoutingPayload samplePayload)
      = .ok samplePayload :=
  c8_parse_encode_roundtrip samplePayloadJson samplePayload rfl

/-- C10: a compound object binding one discriminator key to `null` and the
other to a valid non-empty operand list parses successfully — a
present-but-null key counts as absent for the exactly-one-of check. -/
theorem c10_null_discriminator_counts_as_absent :
    (∀ (kvs : List (String × Json)) (xs : List Json) (es : List Expr),
      lookupKey kvs "AndExpression" = some .null →
      lookupKey kvs "OrExpression" = some (.arr xs) →
      xs ≠ [] → parseExprList xs = .ok es →
      parseCompoundExpr kvs = .ok (.compound none (some es)))
  ∧ (∀ (kvs : List (String × Json)) (xs : List Json) (es : List Expr),
      lookupKey kvs "AndExpression" = some (.arr xs) →
      lookupKey kvs "OrExpression" = some .null →
      xs ≠ [] → parseExprList xs = .ok es →
      parseCompoundExpr kvs = .ok (.compound (some es) none)) := by
  constructor
  · intro kvs xs es hA hO hne hok
    rw [parseCompoundExpr_def]
    have hens : ensure_single_key kvs = true := by
      unfold ensure_single_key presentNonNull
      rw [hA, hO]
      rfl
    rw [hens]
    simp only [Bool.not_true, Bool.false_eq_true, if_false]
    have hemp : xs.isEmpty = false := by
      cases xs with
      | nil => exact absurd rfl hne
      | cons a t => rfl
    simp only [hA, parseOperand_null, Except.bind]
    simp only [hO, parseOperand_arr, hemp, Bool.false_eq_true, if_false, hok]
    simp [Except.map, Except.bind]
  · intro kvs xs es hA hO hne hok
    rw [parseCompoundExpr_def]
    have hens : ensure_single_key kvs = true := by
      unfold ensure_single_key presentNonNull
      rw [hA, hO]
      rfl
    rw [hens]
    simp only [Bool.not_true, Bool.false_eq_true, if_false]
    have hemp : xs.isEmpty = false := by
      cases xs with
      | nil => exact absurd rfl hne
      | cons a t => rfl
    simp only [hA, parseOperand_arr, hemp, Bool.false_eq_true, if_false, hok]
    simp only [hO, parseOperand_null]
    simp [Except.bind, Except.map]

/-- C10 witness: concrete compound object with `AndExpression: null` and a
one-element `OrExpression` list. -/
theorem c10_null_discriminator_counts_as_absent_witness :
    parseCompoundExpr [("AndExpression", Json.null),
      ("OrExpression", .arr [.obj [("AttributeCondition", sampleAttrJson)]])]
      = .ok (.compound none (some [.attrCond sampleAttrCond])) :=
  c10_null_discriminator_counts_as_absent.1 _
    [.obj [("AttributeCondition", sampleAttrJson)]]
    [.attrCond sampleAttrCond] rfl rfl (by simp) rfl

end ConnectTypes
